import Mathlib

set_option maxRecDepth 100000

/-!
zheap: undo checkpoint files (`undo.c`) and the `foo` undo test module (`foo.c`).

A shallow embedding of `src/backend/access/undo/undo.c` and
`src/backend/access/foo/foo.c`.  C functions become Lean functions over an
explicit world state; `ereport(ERROR, ...)` becomes an `error` result that carries
the state at the moment the error is raised.
-/

namespace Zheap

/-! ## Bytes, C strings, file names -/

/-- One `unsigned char`. -/
abbrev Byte := Fin 256

/-- C `strcmp` on strings given without their terminating NUL: the sign of the
difference of the first pair of differing `unsigned char`s, the terminator counting
as zero. -/
def strcmp : List Char → List Char → Int
  | [], [] => 0
  | [], b :: _ => 0 - (b.toNat : Int)
  | a :: _, [] => (a.toNat : Int)
  | a :: as, b :: bs =>
    if a = b then strcmp as bs else (a.toNat : Int) - (b.toNat : Int)

/-- Digit characters of the `X` conversion of `printf`. -/
def hexUpper (d : Nat) : Char :=
  if d < 10 then Char.ofNat (48 + d) else Char.ofNat (55 + d)

/-- The `k` low hexadecimal digits of `n`, most significant first, upper case. -/
def hexField : Nat → Nat → List Char
  | 0, _ => []
  | k + 1, n => hexUpper (n / 16 ^ k % 16) :: hexField k n

/-- The text `snprintf` produces for `"%016" INT64_MODIFIER "X"` and a `uint64`
argument: sixteen zero-padded upper-case hexadecimal digits.  (A `uint64` never needs
more than the minimum field width of sixteen.) -/
def checkpointFileName (lsn : Nat) : List Char := hexField 16 lsn

/-- The text of `"pg_undo/%016" INT64_MODIFIER "X"` (far shorter than `MAXPGPATH`). -/
def checkpointPath (lsn : Nat) : List Char := "pg_undo/".toList ++ checkpointFileName lsn

/-- Modelled from the spec: the fixed filename width `UNDO_CHECKPOINT_FILENAME_LENGTH`
of `access/undo.h` (absent from the sources at hand); the width of the
"fixed-width uppercase hexadecimal encoding" that `"%016X"` produces. -/
def UNDO_CHECKPOINT_FILENAME_LENGTH : Nat := 16

/-- Modelled from the spec: the macro `UndoCheckPointFilenamePrecedes` of
`access/undo.h` (absent from the sources at hand): the "lexicographic hex comparison",
which the comment in `CleanUpUndoCheckPointFiles` says is done with `strcmp`. -/
def UndoCheckPointFilenamePrecedes (file1 file2 : List Char) : Bool :=
  decide (strcmp file1 file2 < 0)

/-! ## CRC-32C (`port/pg_crc32c.h`) -/

/-- The reflected Castagnoli polynomial. -/
def crc32cPoly : Nat := 0x82F63B78

/-- One bit of the reflected CRC division. -/
def crcShift (c : Nat) : Nat :=
  if c % 2 = 1 then (c / 2) ^^^ crc32cPoly else c / 2

/-- One input byte: xor it into the low bits and divide eight times. -/
def crcByte (c : Nat) (b : Byte) : Nat :=
  crcShift (crcShift (crcShift (crcShift (crcShift (crcShift (crcShift (crcShift
    (c ^^^ b.val))))))))

/-- Modelled from the spec: `INIT_CRC32C` of `port/pg_crc32c.h` (absent from the
sources at hand), "CRC-32C semantics: initialize". -/
def INIT_CRC32C : Nat := 0xFFFFFFFF

/-- Modelled from the spec: `COMP_CRC32C` of `port/pg_crc32c.h` (absent from the
sources at hand), "incrementally combine over every transferred byte". -/
def COMP_CRC32C (crc : Nat) (data : List Byte) : Nat := data.foldl crcByte crc

/-- Modelled from the spec: `FIN_CRC32C` of `port/pg_crc32c.h` (absent from the
sources at hand), "finalize". -/
def FIN_CRC32C (crc : Nat) : Nat := crc ^^^ 0xFFFFFFFF

/-- Modelled from the spec: `EQ_CRC32C` of `port/pg_crc32c.h` (absent from the
sources at hand), "compare ... to the stored value". -/
def EQ_CRC32C (c1 c2 : Nat) : Bool := decide (c1 = c2)

/-- The four bytes of a `pg_crc32c` object as `write(fd, &crc, sizeof(crc))` emits
them (least significant byte first). -/
def crcToBytes (c : Nat) : List Byte :=
  [⟨c % 256, Nat.mod_lt _ (by decide)⟩, ⟨c / 256 % 256, Nat.mod_lt _ (by decide)⟩,
   ⟨c / 65536 % 256, Nat.mod_lt _ (by decide)⟩, ⟨c / 16777216 % 256, Nat.mod_lt _ (by decide)⟩]

/-- The `pg_crc32c` object that `read(fd, &old_crc, sizeof(old_crc))` fills from the
bytes transferred. -/
def crcOfBytes (bs : List Byte) : Nat :=
  (bs.getD 0 0).val + 256 * (bs.getD 1 0).val + 65536 * (bs.getD 2 0).val
    + 16777216 * (bs.getD 3 0).val

/-! ## The world `undo.c` runs in -/

/-- Outcomes of the system calls that the environment decides. -/
structure Faults where
  /-- The C function `OpenTransientFile` returns a negative descriptor. -/
  openFails : Bool
  /-- The C function `read` returns -1. -/
  readFails : Bool
  /-- The C function `write` returns -1. -/
  writeFails : Bool
  /-- When `some r`: a `write` call transfers at most `r` bytes. -/
  writeLimit : Option Nat
  /-- The C function `pg_fsync` returns -1. -/
  fsyncFails : Bool
  /-- The C function `CloseTransientFile` returns -1. -/
  closeFails : Bool
  /-- The C function `fsync_fname("pg_undo", true)` cannot sync the directory and raises. -/
  dirFsyncFails : Bool
  /-- Names under `pg_undo` for which `unlink` fails. -/
  unlinkFails : List (List Char)
deriving DecidableEq, Repr

/-- No system call fails. -/
def Faults.none : Faults :=
  { openFails := false, readFails := false, writeFails := false, writeLimit := Option.none,
    fsyncFails := false, closeFails := false, dirFsyncFails := false, unlinkFails := [] }

/-- Entries of the directory `pg_undo`: name and content. -/
abbrev Dir := List (List Char × List Byte)

/-- State outside the function bodies of `undo.c`. -/
structure World where
  /-- The directory `pg_undo`. -/
  pg_undo : Dir
  /-- What `IsBootstrapProcessingMode()` returns. -/
  bootstrap : Bool
  /-- What `BackupInProgress()` returns. -/
  backup : Bool
  /-- What the system calls do. -/
  faults : Faults
  /-- Ghost: the arguments of the calls of `CleanUpUndoCheckPointFiles` so far. -/
  cleanupCalls : List Nat
deriving DecidableEq, Repr

/-- Content of the entry called `name`, if there is one. -/
def lookupFile : Dir → List Char → Option (List Byte)
  | [], _ => none
  | (n, c) :: rest, name => if n = name then some c else lookupFile rest name

/-- Replace the content of the entry called `name`, creating the entry if absent. -/
def storeFile : Dir → List Char → List Byte → Dir
  | [], name, content => [(name, content)]
  | (n, c) :: rest, name, content =>
    if n = name then (n, content) :: rest else (n, c) :: storeFile rest name content

/-- Effect of `unlink` on the directory. -/
def removeFile (dir : Dir) (name : List Char) : Dir :=
  dir.filter (fun de => decide (de.1 ≠ name))

/-- An open file description: which entry of `pg_undo`, and the file offset. -/
structure OpenFile where
  name : List Char
  pos : Nat
deriving DecidableEq, Repr

/-- The C struct `UndoCheckpointContext`; `fd = none` stands for a negative
descriptor. -/
structure UndoCheckpointContext where
  path : List Char
  fd : Option OpenFile
  crc : Nat
deriving DecidableEq, Repr

/-- Errors raised by `ereport(ERROR, ...)` in `undo.c`, one constructor per call
site message. -/
inductive UndoError where
  /-- "could not open file", `errcode_for_file_access()`. -/
  | couldNotOpen (path : List Char)
  /-- "could not read file ...: %m", `errcode_for_file_access()`. -/
  | couldNotRead (path : List Char)
  /-- "could not read file ...: read rc of nbytes", `ERRCODE_DATA_CORRUPTED`. -/
  | shortRead (path : List Char) (rc nbytes : Nat)
  /-- "undo checkpoint file ... contains incorrect checksum". -/
  | incorrectChecksum (path : List Char)
  /-- "could not write file ...: %m", `errcode_for_file_access()`. -/
  | couldNotWrite (path : List Char)
  /-- "could not write file ...: wrote wc of nbytes", `ERRCODE_DATA_CORRUPTED`. -/
  | shortWrite (path : List Char) (wc nbytes : Nat)
  /-- "could not close file", `errcode_for_file_access()`. -/
  | couldNotClose (path : List Char)
  /-- Raised inside `fsync_fname`, a file-access error. -/
  | couldNotFsync (path : List Char)
  /-- "could not unlink file", `errcode_for_file_access()`. -/
  | couldNotUnlink (path : List Char)
deriving DecidableEq, Repr

/-- Result of a C function that may raise: the value and the state on return, or the
error and the state at the `ereport`. -/
inductive Res (σ α : Type) where
  | ok (a : α) (s : σ)
  | error (e : UndoError) (s : σ)
deriving DecidableEq, Repr

/-! ## Raw and checksummed transfers -/

/-- The system call `read` on a regular file: as many bytes as the file still has,
up to `nbytes`; -1 on failure or on a bad descriptor. -/
def sysRead (w : World) (fd : Option OpenFile) (nbytes : Nat) :
    Int × List Byte × Option OpenFile :=
  match fd with
  | none => (-1, [], none)
  | some f =>
    if w.faults.readFails then (-1, [], some f)
    else
      let got := (((lookupFile w.pg_undo f.name).getD []).drop f.pos).take nbytes
      ((got.length : Int), got, some { f with pos := f.pos + got.length })

/-- The C function `ReadRawUndoCheckpointData`. -/
def ReadRawUndoCheckpointData (w : World) (ctx : UndoCheckpointContext) (nbytes : Nat) :
    Res UndoCheckpointContext (List Byte) :=
  match sysRead w ctx.fd nbytes with
  | (rc, buffer, fd) =>
    let ctx1 := { ctx with fd := fd }
    if rc < 0 then .error (.couldNotRead ctx.path) ctx1
    else if rc.toNat < nbytes then .error (.shortRead ctx.path rc.toNat nbytes) ctx1
    else .ok buffer ctx1

/-- The C function `ReadUndoCheckpointData`: raw read, then `COMP_CRC32C` over the buffer. -/
def ReadUndoCheckpointData (w : World) (ctx : UndoCheckpointContext) (nbytes : Nat) :
    Res UndoCheckpointContext (List Byte) :=
  match ReadRawUndoCheckpointData w ctx nbytes with
  | .error e c => .error e c
  | .ok buffer c => .ok buffer { c with crc := COMP_CRC32C c.crc buffer }

/-- The system call `write` at the file offset: overwrites in place and extends the
file; -1 on failure or on a bad descriptor. -/
def sysWrite (w : World) (fd : Option OpenFile) (buffer : List Byte) :
    Int × World × Option OpenFile :=
  match fd with
  | none => (-1, w, none)
  | some f =>
    if w.faults.writeFails then (-1, w, some f)
    else
      let data := match w.faults.writeLimit with
        | none => buffer
        | some r => buffer.take r
      let old := (lookupFile w.pg_undo f.name).getD []
      let new := old.take f.pos ++ data ++ old.drop (f.pos + data.length)
      ((data.length : Int), { w with pg_undo := storeFile w.pg_undo f.name new },
        some { f with pos := f.pos + data.length })

/-- The C function `WriteRawUndoCheckpointData`. -/
def WriteRawUndoCheckpointData (w : World) (ctx : UndoCheckpointContext)
    (buffer : List Byte) : Res (World × UndoCheckpointContext) Unit :=
  match sysWrite w ctx.fd buffer with
  | (wc, w1, fd) =>
    let ctx1 := { ctx with fd := fd }
    if wc < 0 then .error (.couldNotWrite ctx.path) (w1, ctx1)
    else if wc.toNat < buffer.length then
      .error (.shortWrite ctx.path wc.toNat buffer.length) (w1, ctx1)
    else .ok () (w1, ctx1)

/-- The C function `WriteUndoCheckpointData`: raw write, then `COMP_CRC32C` over the buffer. -/
def WriteUndoCheckpointData (w : World) (ctx : UndoCheckpointContext)
    (buffer : List Byte) : Res (World × UndoCheckpointContext) Unit :=
  match WriteRawUndoCheckpointData w ctx buffer with
  | .error e s => .error e s
  | .ok () (w1, c) => .ok () (w1, { c with crc := COMP_CRC32C c.crc buffer })

/-! ## Subsystem save and restore routines -/

/-- Modelled from the spec: a subsystem save routine (`CheckPointUndoLogs`,
`CheckPointXactUndo`; their files are absent from the sources at hand).  It owns no
file and only calls `WriteUndoCheckpointData`, once per chunk, in order. -/
def subsystemSave : List (List Byte) → World → UndoCheckpointContext →
    Res (World × UndoCheckpointContext) Unit
  | [], w, ctx => .ok () (w, ctx)
  | chunk :: rest, w, ctx =>
    match WriteUndoCheckpointData w ctx chunk with
    | .error e s => .error e s
    | .ok () (w1, c) => subsystemSave rest w1 c

/-- Modelled from the spec: a subsystem restore routine (`StartupUndoLogs`,
`StartupXactUndo`; their files are absent from the sources at hand).  It only calls
`ReadUndoCheckpointData`, once per requested size, in order, and receives the
buffers. -/
def subsystemRestore (w : World) : List Nat → UndoCheckpointContext →
    Res UndoCheckpointContext (List (List Byte))
  | [], ctx => .ok [] ctx
  | n :: rest, ctx =>
    match ReadUndoCheckpointData w ctx n with
    | .error e c => .error e c
    | .ok buffer c =>
      match subsystemRestore w rest c with
      | .error e c1 => .error e c1
      | .ok buffers c1 => .ok (buffer :: buffers) c1

/-! ## `CleanUpUndoCheckPointFiles` -/

/-- The `while ((de = ReadDir(...)) != NULL)` loop over the entries still to be
returned by `ReadDir`. -/
def cleanUpLoop (oldest_path : List Char) : Dir → World → Res World Unit
  | [], w => .ok () w
  | de :: rest, w =>
    if ¬ (de.1.length = UNDO_CHECKPOINT_FILENAME_LENGTH) then
      cleanUpLoop oldest_path rest w
    else if UndoCheckPointFilenamePrecedes de.1 oldest_path then
      if de.1 ∈ w.faults.unlinkFails then
        .error (.couldNotUnlink ("pg_undo/".toList ++ de.1)) w
      else
        cleanUpLoop oldest_path rest { w with pg_undo := removeFile w.pg_undo de.1 }
    else cleanUpLoop oldest_path rest w

/-- The C function `CleanUpUndoCheckPointFiles`. -/
def CleanUpUndoCheckPointFiles (w : World) (checkPointRedo : Nat) : Res World Unit :=
  let w0 := { w with cleanupCalls := w.cleanupCalls ++ [checkPointRedo] }
  if w0.backup then .ok () w0
  else cleanUpLoop (checkpointFileName checkPointRedo) w0.pg_undo w0

/-! ## `StartupUndo` and `CheckPointUndo` -/

/-- Result of `OpenTransientFile(path, O_RDONLY | PG_BINARY)`. -/
def openRead (w : World) (name : List Char) : Option OpenFile :=
  if w.faults.openFails then none
  else match lookupFile w.pg_undo name with
    | none => none
    | some _ => some { name := name, pos := 0 }

/-- Result of `OpenTransientFile(path, O_RDWR | O_CREAT | PG_BINARY)`: an existing
file keeps its content (no `O_TRUNC`), a missing one is created empty. -/
def openCreate (w : World) (name : List Char) : World × Option OpenFile :=
  if w.faults.openFails then (w, none)
  else match lookupFile w.pg_undo name with
    | none => ({ w with pg_undo := storeFile w.pg_undo name [] }, some { name := name, pos := 0 })
    | some _ => (w, some { name := name, pos := 0 })

/-- The C function `StartupUndo`.  The two size lists are what `StartupUndoLogs` and
`StartupXactUndo` request; the value returned is what they were handed.  The call of
`CloseTransientFile`, whose result the C code drops, changes nothing that is read
afterwards and is left out. -/
def StartupUndo (w : World) (checkPointRedo : Nat) (logSizes xactSizes : List Nat) :
    Res UndoCheckpointContext (List (List Byte) × List (List Byte)) :=
  let ctx0 : UndoCheckpointContext := { path := [], fd := none, crc := 0 }
  if w.bootstrap then .ok ([], []) ctx0
  else
    let ctx1 := { ctx0 with path := checkpointPath checkPointRedo,
                            fd := openRead w (checkpointFileName checkPointRedo) }
    if ctx1.fd = none then .error (.couldNotOpen ctx1.path) ctx1
    else
      let ctx2 := { ctx1 with crc := INIT_CRC32C }
      match subsystemRestore w logSizes ctx2 with
      | .error e c => .error e c
      | .ok logs ctx3 =>
        match subsystemRestore w xactSizes ctx3 with
        | .error e c => .error e c
        | .ok xact ctx4 =>
          match ReadRawUndoCheckpointData w ctx4 4 with
          | .error e c => .error e c
          | .ok buffer ctx5 =>
            let old_crc := crcOfBytes buffer
            let ctx6 := { ctx5 with crc := FIN_CRC32C ctx5.crc }
            if ¬ EQ_CRC32C ctx6.crc old_crc then .error (.incorrectChecksum ctx6.path) ctx6
            else .ok (logs, xact) ctx6

/-- The C function `pg_fsync`: 0 on success, -1 on failure; its caller in
`CheckPointUndo` drops the value. -/
def pg_fsync (w : World) (_fd : Option OpenFile) : Int :=
  if w.faults.fsyncFails then -1 else 0

/-- The C function `CheckPointUndo`.  The two chunk lists are what `CheckPointUndoLogs` and
`CheckPointXactUndo` write. -/
def CheckPointUndo (w : World) (checkPointRedo priorCheckPointRedo : Nat)
    (logs xact : List (List Byte)) : Res World Unit :=
  let path := checkpointPath checkPointRedo
  match openCreate w (checkpointFileName checkPointRedo) with
  | (w1, fd) =>
    if fd = none then .error (.couldNotOpen path) w1
    else
      let ctx1 : UndoCheckpointContext := { path := path, fd := fd, crc := INIT_CRC32C }
      match subsystemSave logs w1 ctx1 with
      | .error e s => .error e s.1
      | .ok () (w2, ctx2) =>
        match subsystemSave xact w2 ctx2 with
        | .error e s => .error e s.1
        | .ok () (w3, ctx3) =>
          let ctx4 := { ctx3 with crc := FIN_CRC32C ctx3.crc }
          match WriteRawUndoCheckpointData w3 ctx4 (crcToBytes ctx4.crc) with
          | .error e s => .error e s.1
          | .ok () (w4, ctx5) =>
            let _rc := pg_fsync w4 ctx5.fd
            if w4.faults.closeFails then .error (.couldNotClose ctx5.path) w4
            else if w4.faults.dirFsyncFails then
              .error (.couldNotFsync "pg_undo".toList) w4
            else CleanUpUndoCheckPointFiles w4 priorCheckPointRedo

/-! ## Sample worlds -/

/-- An empty `pg_undo`, normal processing, no backup, no failing system call. -/
def sampleEmpty : World :=
  { pg_undo := [], bootstrap := false, backup := false, faults := Faults.none,
    cleanupCalls := [] }

/-- The world after `CheckPointUndo sampleEmpty 5 3 [[1, 2], [3]] [[4, 5, 6]]`. -/
def sampleSaved : World :=
  { pg_undo := [(checkpointFileName 5, [1, 2, 3, 4, 5, 6, 171, 251, 77, 79])],
    bootstrap := false, backup := false, faults := Faults.none, cleanupCalls := [3] }

/-- As `sampleSaved`, with the first byte of the file changed from 1 to 9. -/
def sampleTampered : World :=
  { sampleSaved with
    pg_undo := [(checkpointFileName 5, [9, 2, 3, 4, 5, 6, 171, 251, 77, 79])] }

/-- As `sampleSaved`, with the file cut to its first seven bytes. -/
def sampleTruncated : World :=
  { sampleSaved with pg_undo := [(checkpointFileName 5, [1, 2, 3, 4, 5, 6, 171])] }

/-- A `pg_undo` that already holds a fifteen-byte file under the name of position 5. -/
def sampleOlder : World :=
  { sampleEmpty with
    pg_undo := [(checkpointFileName 5,
      [90, 91, 92, 93, 94, 95, 96, 97, 98, 99, 100, 101, 102, 103, 104])] }

/-- The world after `CheckPointUndo sampleOlder 5 3 [[1, 2], [3]] [[4, 5, 6]]`: ten
bytes written over the older file, whose last five bytes remain. -/
def sampleOlderSaved : World :=
  { sampleOlder with
    pg_undo := [(checkpointFileName 5,
      [1, 2, 3, 4, 5, 6, 171, 251, 77, 79, 100, 101, 102, 103, 104])],
    cleanupCalls := [3] }

/-- As `sampleOlderSaved`, with the file cut to its first twelve bytes. -/
def sampleOlderCut : World :=
  { sampleOlderSaved with
    pg_undo := [(checkpointFileName 5, [1, 2, 3, 4, 5, 6, 171, 251, 77, 79, 100, 101])] }

/-- As `sampleEmpty`, but `pg_fsync` fails. -/
def sampleFsyncFails : World :=
  { sampleEmpty with faults := { Faults.none with fsyncFails := true } }

/-- Checkpoint files for the positions 1, 2, 3 and an entry of another width. -/
def sampleRetention : World :=
  { sampleEmpty with
    pg_undo := [(checkpointFileName 1, []), (checkpointFileName 2, []),
                (checkpointFileName 3, []), ("tmp".toList, [])] }

/-! ## The `foo` test module (`foo.c`) -/

/-- The NUL character that ends a C string. -/
def NUL : Char := Char.ofNat 0

/-- The C function `text_to_cstring`: a fresh buffer with the characters of the text and a terminating
NUL. -/
def text_to_cstring (t : List Char) : List Char := t ++ [NUL]

/-- C `strlen` on a buffer: the number of characters before the first NUL. -/
def strlen : List Char → Nat
  | [] => 0
  | c :: cs => if c = NUL then 0 else strlen cs + 1

/-- The C expression `*p` for a buffer `p`. -/
def deref (buf : List Char) : Char := buf.headD NUL

/-- The argument pair `(p, n)` of a call: the first `n` characters of the buffer. -/
def bytesAt (buf : List Char) (n : Nat) : List Char := buf.take n

/-- Constants of `access/foo_xlog.h`, `access/rmgr.h` and `access/xlogrecord.h`, absent
from the sources at hand and taken as parameters. -/
structure FooConsts where
  RM_FOO_ID : Nat
  XLR_INFO_MASK : Nat
  XLOG_FOO_STRING : Nat
  XLOG_FOO_PING : Nat
  XLOG_FOO_CREATEWRITECLOSE : Nat
deriving DecidableEq, Repr

/-- Sample values in the layout PostgreSQL uses for an info byte: operation codes in the
high four bits, `XLR_INFO_MASK` the low four. -/
def sampleConsts : FooConsts :=
  { RM_FOO_ID := 23, XLR_INFO_MASK := 0x0F, XLOG_FOO_STRING := 0x00, XLOG_FOO_PING := 0x10,
    XLOG_FOO_CREATEWRITECLOSE := 0x20 }

/-- Modelled from the spec: the "type tag identifying which higher-level subsystem owns"
a record set (`UndoRecordSetType` of `access/undorecordset.h`, absent from the sources
at hand). -/
inductive UndoRecordSetType where
  | URST_INVALID
  | URST_TRANSACTION
  | URST_FOO
deriving DecidableEq, Repr

/-- A finished log record as redo sees it: resource manager, info byte, main data. -/
structure XLogRecord where
  rmid : Nat
  xl_info : Nat
  data : List Char
deriving DecidableEq, Repr

/-- Modelled from the spec: the collaborator contracts of the undo record set layer, of
WAL insertion and of critical sections (`undorecordset.c`, `xloginsert.c`, `miscadmin.h`,
absent from the sources at hand).  Each call is recorded with the values passed and, for
`XLogInsert` and `UndoCreate`, the value returned.  Record sets are named by a handle. -/
inductive FooEvent where
  | UndoCreate (type : UndoRecordSetType) (persistence : Char) (urs : Nat)
  | UndoAllocate (urs : Nat) (size : Nat)
  | UndoPrepareToMarkClosed (urs : Nat)
  | START_CRIT_SECTION
  | XLogBeginInsert
  | UndoInsert (urs : Nat) (first_block_id : Nat) (data : List Char)
  | UndoMarkClosed (urs : Nat)
  | XLogRegisterData (data : List Char)
  | XLogInsert (rmid : Nat) (info : Nat) (lsn : Nat)
  | UndoPageSetLSN (urs : Nat) (lsn : Nat)
  | END_CRIT_SECTION
  | UndoRelease (urs : Nat)
  | UndoInsertInRecovery (data : List Char)
  | UndoUpdateInRecovery
deriving DecidableEq, Repr

/-- State outside the function bodies of `foo.c`. -/
structure FooWorld where
  /-- The static variable `current_urs`; `none` is `NULL`. -/
  current_urs : Option Nat
  /-- How many record sets `UndoCreate` has handed out; the next handle. -/
  created : Nat
  /-- Data registered with the log record being composed. -/
  registered : List Char
  /-- The log records finished so far, oldest first. -/
  wal : List XLogRecord
  /-- The collaborator calls so far, oldest first. -/
  trace : List FooEvent
deriving DecidableEq, Repr

/-- What the collaborators answer during one call of a `foo` function. -/
structure FooEnv where
  /-- The record pointer `UndoAllocate` returns; `none` when it raises for lack of
  space. -/
  urp : Option Nat
  /-- The position `XLogInsert` returns. -/
  lsn : Nat
deriving DecidableEq, Repr

/-- Errors raised in `foo.c`, one constructor per `elog` message, and the failure of
the space reservation. -/
inductive FooError where
  /-- "persistence level required". -/
  | persistenceLevelRequired
  /-- "unknown persistence level". -/
  | unknownPersistenceLevel
  /-- "an UndoRecordSet is already active". -/
  | alreadyActive
  /-- "no active UndoRecordSet" (`foo_close`). -/
  | noActiveUndoRecordSet
  /-- "there is no active UndoRecordSet; call foo_create() first" (`foo_write`). -/
  | noActiveCallCreateFirst
  /-- Raised inside `UndoAllocate`. -/
  | allocateFailed
  /-- The C function `elog(PANIC, "foo_redo: unknown op code %u", info)`. -/
  | unknownOpCode (info : Nat)
deriving DecidableEq, Repr

/-- Result of a `foo` function: value and world on return, or error and world at the
`elog`. -/
inductive FooRes (α : Type) where
  | ok (a : α) (w : FooWorld)
  | error (e : FooError) (w : FooWorld)
deriving DecidableEq, Repr

/-- Record one collaborator call. -/
def FooWorld.emit (w : FooWorld) (e : FooEvent) : FooWorld :=
  { w with trace := w.trace ++ [e] }

/-- Modelled from the spec: `UndoCreate` (`undorecordset.c`, absent from the sources at
hand), "allocate a new record set of that class and a caller-specified type tag". -/
def UndoCreate (w : FooWorld) (type : UndoRecordSetType) (persistence : Char) :
    Nat × FooWorld :=
  (w.created,
    { w with created := w.created + 1,
             trace := w.trace ++ [.UndoCreate type persistence w.created] })

/-- Modelled from the spec: `UndoAllocate` (`undorecordset.c`, absent from the sources
at hand), "reserve physical space ... this call may fail early (space/IO exhaustion)
with no side effects yet applied". -/
def UndoAllocate (w : FooWorld) (env : FooEnv) (urs size : Nat) : Option (Nat × FooWorld) :=
  match env.urp with
  | none => none
  | some urp => some (urp, w.emit (.UndoAllocate urs size))

/-- Modelled from the spec: `XLogBeginInsert` (`xloginsert.c`, absent from the sources
at hand), "begin composing a record". -/
def XLogBeginInsert (w : FooWorld) : FooWorld :=
  { w with registered := [], trace := w.trace ++ [.XLogBeginInsert] }

/-- Modelled from the spec: `XLogRegisterData` (`xloginsert.c`, absent from the sources
at hand), "register opaque data into the in-progress record". -/
def XLogRegisterData (w : FooWorld) (data : List Char) : FooWorld :=
  { w with registered := w.registered ++ data, trace := w.trace ++ [.XLogRegisterData data] }

/-- Modelled from the spec: `XLogInsert` (`xloginsert.c`, absent from the sources at
hand), "finish composing and obtain a durable position". -/
def XLogInsert (w : FooWorld) (env : FooEnv) (rmid info : Nat) : Nat × FooWorld :=
  (env.lsn,
    { w with wal := w.wal ++ [{ rmid := rmid, xl_info := info, data := w.registered }],
             registered := [],
             trace := w.trace ++ [.XLogInsert rmid info env.lsn] })

/-- The object `int record = 42` as `XLogRegisterData((char *) &record, sizeof(record))`
sees it (least significant byte first). -/
def bogusRecord : List Char := [Char.ofNat 42, NUL, NUL, NUL]

/-- The C function `foo_create`; `arg = none` is a NULL argument. -/
def foo_create (w : FooWorld) (arg : Option (List Char)) : FooRes Unit :=
  match arg with
  | none => .error .persistenceLevelRequired w
  | some t =>
    let persistence := text_to_cstring t
    if deref persistence ≠ 'p' ∧ deref persistence ≠ 't' ∧ deref persistence ≠ 'u' then
      .error .unknownPersistenceLevel w
    else if w.current_urs ≠ none then .error .alreadyActive w
    else
      match UndoCreate w .URST_FOO (deref persistence) with
      | (urs, w1) => .ok () { w1 with current_urs := some urs }

/-- The C function `foo_close`. -/
def foo_close (k : FooConsts) (w : FooWorld) (env : FooEnv) : FooRes Unit :=
  match w.current_urs with
  | none => .error .noActiveUndoRecordSet w
  | some urs =>
    let w1 := w.emit (.UndoPrepareToMarkClosed urs)
    let w2 := w1.emit .START_CRIT_SECTION
    let w3 := XLogBeginInsert w2
    let w4 := w3.emit (.UndoMarkClosed urs)
    let w5 := XLogRegisterData w4 bogusRecord
    match XLogInsert w5 env k.RM_FOO_ID k.XLOG_FOO_PING with
    | (lsn, w6) =>
      let w7 := w6.emit (.UndoPageSetLSN urs lsn)
      let w8 := w7.emit .END_CRIT_SECTION
      let w9 := w8.emit (.UndoRelease urs)
      .ok () { w9 with current_urs := none }

/-- The C function `foo_write`; the value returned is the record pointer that the C code formats as
text. -/
def foo_write (k : FooConsts) (w : FooWorld) (arg : List Char) (env : FooEnv) : FooRes Nat :=
  let string := text_to_cstring arg
  let length := strlen string
  match w.current_urs with
  | none => .error .noActiveCallCreateFirst w
  | some urs =>
    match UndoAllocate w env urs (length + 1) with
    | none => .error .allocateFailed w
    | some (urp, w1) =>
      let w2 := w1.emit .START_CRIT_SECTION
      let w3 := XLogBeginInsert w2
      let w4 := w3.emit (.UndoInsert urs 0 (bytesAt string (length + 1)))
      let w5 := XLogRegisterData w4 (bytesAt string (length + 1))
      match XLogInsert w5 env k.RM_FOO_ID k.XLOG_FOO_STRING with
      | (lsn, w6) =>
        let w7 := w6.emit (.UndoPageSetLSN urs lsn)
        let w8 := w7.emit .END_CRIT_SECTION
        let w9 := w8.emit (.UndoRelease urs)
        .ok urp w9

/-- The C function `foo_createwriteclose`. -/
def foo_createwriteclose (k : FooConsts) (w : FooWorld) (arg : List Char) (env : FooEnv) :
    FooRes Nat :=
  let string := text_to_cstring arg
  let length := strlen string
  match UndoCreate w .URST_FOO 'p' with
  | (urs, w0) =>
    match UndoAllocate w0 env urs (length + 1) with
    | none => .error .allocateFailed w0
    | some (urp, w1) =>
      let w2 := w1.emit (.UndoPrepareToMarkClosed urs)
      let w3 := w2.emit .START_CRIT_SECTION
      let w4 := XLogBeginInsert w3
      let w5 := w4.emit (.UndoInsert urs 0 (bytesAt string (length + 1)))
      let w6 := w5.emit (.UndoMarkClosed urs)
      let w7 := XLogRegisterData w6 (bytesAt string (length + 1))
      match XLogInsert w7 env k.RM_FOO_ID k.XLOG_FOO_CREATEWRITECLOSE with
      | (lsn, w8) =>
        let w9 := w8.emit (.UndoPageSetLSN urs lsn)
        let w10 := w9.emit .END_CRIT_SECTION
        let w11 := w10.emit (.UndoRelease urs)
        .ok urp w11

/-- The C function `foo_xlog_string`. -/
def foo_xlog_string (w : FooWorld) (record : XLogRecord) : FooWorld :=
  let string := record.data
  w.emit (.UndoInsertInRecovery (bytesAt string (strlen string + 1)))

/-- The C function `foo_xlog_ping`. -/
def foo_xlog_ping (w : FooWorld) (_record : XLogRecord) : FooWorld :=
  w.emit .UndoUpdateInRecovery

/-- The C function `foo_xlog_createwriteclose`. -/
def foo_xlog_createwriteclose (w : FooWorld) (record : XLogRecord) : FooWorld :=
  let string := record.data
  (w.emit (.UndoInsertInRecovery (bytesAt string (strlen string + 1)))).emit
    .UndoUpdateInRecovery

/-- The `uint8` value of `XLogRecGetInfo(record) & ~XLR_INFO_MASK`. -/
def recordInfo (k : FooConsts) (record : XLogRecord) : Nat :=
  (record.xl_info % 256) &&& (255 ^^^ (k.XLR_INFO_MASK % 256))

/-- The C function `foo_redo`; the `default` arm is the `elog(PANIC, ...)`. -/
def foo_redo (k : FooConsts) (w : FooWorld) (record : XLogRecord) : FooRes Unit :=
  let info := recordInfo k record
  if info = k.XLOG_FOO_STRING then .ok () (foo_xlog_string w record)
  else if info = k.XLOG_FOO_PING then .ok () (foo_xlog_ping w record)
  else if info = k.XLOG_FOO_CREATEWRITECLOSE then .ok () (foo_xlog_createwriteclose w record)
  else .error (.unknownOpCode info) w

/-- The byte sequences handed to the record-set layer for insertion, in order. -/
def insertedData : List FooEvent → List (List Char)
  | [] => []
  | .UndoInsert _ _ data :: rest => data :: insertedData rest
  | .UndoInsertInRecovery data :: rest => data :: insertedData rest
  | _ :: rest => insertedData rest

/-- Whether a record set noted earlier in a run, if any, is the record set `urs`. -/
def sameSet (noted : Option Nat) (urs : Nat) : Bool :=
  match noted with
  | none => true
  | some u => decide (u = urs)

/-- Where a run of the write protocol stands.  `alloc` is the record set for which
space has been reserved (`UndoAllocate`), `prep` the one prepared for closing
(`UndoPrepareToMarkClosed`), both before the atomic section. -/
inductive StampPhase where
  /-- Before the atomic section. -/
  | before (alloc prep : Option Nat)
  /-- Inside the section, no log record begun. -/
  | inside (alloc prep : Option Nat)
  /-- A log record is being composed; `mutated` is the record set mutated so far. -/
  | composing (alloc prep mutated : Option Nat)
  /-- The log record is finished at `lsn`; pages of `urs` not yet stamped. -/
  | finished (urs lsn : Nat)
  /-- Pages of `urs` are stamped; the section is still open. -/
  | stamped (urs : Nat)
  /-- The section has ended; pages not yet released. -/
  | after (urs : Nat)
  /-- Pages released. -/
  | released
deriving DecidableEq, Repr

/-- One step of the monitor of the stamping discipline; `none` is a violation.  The
section may begin only after a reservation or a prepare-to-close; an insert needs the
reservation for that very record set, a mark-closed the prepare-to-close for it; the
log record may be finished only after a mutation; the stamp must be on the mutated
record set with the position just returned; the release must be of that record set. -/
def stampStep : StampPhase → FooEvent → Option StampPhase
  | .before a p, .UndoCreate _ _ _ => some (.before a p)
  | .before a p, .UndoAllocate urs _ =>
    if sameSet a urs ∧ sameSet p urs then some (.before (some urs) p) else none
  | .before a p, .UndoPrepareToMarkClosed urs =>
    if sameSet a urs ∧ sameSet p urs then some (.before a (some urs)) else none
  | .before a p, .START_CRIT_SECTION =>
    if a = none ∧ p = none then none else some (.inside a p)
  | .inside a p, .XLogBeginInsert => some (.composing a p none)
  | .composing a p m, .UndoInsert urs _ _ =>
    if a = some urs ∧ sameSet m urs then some (.composing a p (some urs)) else none
  | .composing a p m, .UndoMarkClosed urs =>
    if p = some urs ∧ sameSet m urs then some (.composing a p (some urs)) else none
  | .composing a p m, .XLogRegisterData _ => some (.composing a p m)
  | .composing _ _ (some u), .XLogInsert _ _ lsn => some (.finished u lsn)
  | .finished u lsn, .UndoPageSetLSN urs l =>
    if urs = u ∧ l = lsn then some (.stamped u) else none
  | .stamped u, .END_CRIT_SECTION => some (.after u)
  | .after u, .UndoRelease urs => if urs = u then some .released else none
  | _, _ => none

/-- The stamping discipline as a monitor over a trace: reservation and
prepare-to-close happen, and only before the section; inside it a log record is begun,
the reserved or prepared record set is mutated, the record is finished, the pages of
that record set are stamped once with the position just returned; the section ends; the
pages are released. -/
def stampingDiscipline : StampPhase → List FooEvent → Bool
  | ph, [] => decide (ph = .released)
  | ph, e :: rest =>
    match stampStep ph e with
    | none => false
    | some ph1 => stampingDiscipline ph1 rest

/-- The calls of a trace that come before its first `START_CRIT_SECTION`. -/
def beforeSection : List FooEvent → List FooEvent
  | [] => []
  | .START_CRIT_SECTION :: _ => []
  | e :: rest => e :: beforeSection rest

/-- The stamps a trace puts on pages: record set and position. -/
def stampsOf : List FooEvent → List (Nat × Nat)
  | [] => []
  | .UndoPageSetLSN urs lsn :: rest => (urs, lsn) :: stampsOf rest
  | _ :: rest => stampsOf rest

/-- The positions that finishing a log record returned in a trace. -/
def insertPositions : List FooEvent → List Nat
  | [] => []
  | .XLogInsert _ _ lsn :: rest => lsn :: insertPositions rest
  | _ :: rest => insertPositions rest

/-- Whether a trace reserves space for, or prepares the closing of, the record set
`urs` before its atomic section begins. -/
def reservedFor (urs : Nat) (evs : List FooEvent) : Bool :=
  (beforeSection evs).any fun e =>
    match e with
    | .UndoAllocate u _ => decide (u = urs)
    | .UndoPrepareToMarkClosed u => decide (u = urs)
    | _ => false

/-- Whether the run that led from world `w` to world `w1` kept the stamping discipline
for the record set `urs` and the log position `lsn`: the calls it added pass the monitor,
include a reservation or prepare-to-close for `urs` before the section, stamp exactly
once, namely `urs` with `lsn`, and `lsn` is the one position `XLogInsert` returned. -/
def keepsDiscipline (w w1 : FooWorld) (urs lsn : Nat) : Bool :=
  let evs := w1.trace.drop w.trace.length
  decide (w1.trace = w.trace ++ evs) &&
  stampingDiscipline (.before none none) evs &&
  reservedFor urs evs &&
  decide (stampsOf evs = [(urs, lsn)]) &&
  decide (insertPositions evs = [lsn])

/-- What the C code relies on for the constants it is compiled with: the three operation
codes are distinct `case` labels and survive `& ~XLR_INFO_MASK` in a `uint8`. -/
def FooConsts.wellFormed (k : FooConsts) : Bool :=
  decide (k.XLOG_FOO_STRING ≠ k.XLOG_FOO_PING) &&
  decide (k.XLOG_FOO_STRING ≠ k.XLOG_FOO_CREATEWRITECLOSE) &&
  decide (k.XLOG_FOO_PING ≠ k.XLOG_FOO_CREATEWRITECLOSE) &&
  decide ((k.XLOG_FOO_STRING % 256) &&& (255 ^^^ (k.XLR_INFO_MASK % 256)) = k.XLOG_FOO_STRING) &&
  decide ((k.XLOG_FOO_PING % 256) &&& (255 ^^^ (k.XLR_INFO_MASK % 256)) = k.XLOG_FOO_PING) &&
  decide ((k.XLOG_FOO_CREATEWRITECLOSE % 256) &&& (255 ^^^ (k.XLR_INFO_MASK % 256))
    = k.XLOG_FOO_CREATEWRITECLOSE)

/-- A world with an empty slot and nothing logged. -/
def sampleFoo : FooWorld :=
  { current_urs := none, created := 0, registered := [], wal := [], trace := [] }

/-- A world whose slot holds record set 0. -/
def sampleFooOpen : FooWorld :=
  { current_urs := some 0, created := 1, registered := [], wal := [],
    trace := [.UndoCreate .URST_FOO 'p' 0] }

/-- Collaborator answers: record pointer 4096, log position 777. -/
def sampleEnv : FooEnv := { urp := some 4096, lsn := 777 }

/-! # Theorems -/

/-! ## File names -/

theorem hexUpper_lt : ∀ d < 16, ∀ e < 16, d < e → (hexUpper d).toNat < (hexUpper e).toNat := by
  decide

theorem hexUpper_mem : ∀ d < 16, hexUpper d ∈ "0123456789ABCDEF".toList := by
  decide

theorem hexField_length (k n : Nat) : (hexField k n).length = k := by
  induction k with
  | zero => rfl
  | succ k ih => simp [hexField, ih]

theorem hexField_mem (k n : Nat) : ∀ c ∈ hexField k n, c ∈ "0123456789ABCDEF".toList := by
  induction k with
  | zero => intro c hc; simp [hexField] at hc
  | succ k ih =>
    intro c hc
    simp only [hexField, List.mem_cons] at hc
    rcases hc with rfl | hc
    · exact hexUpper_mem _ (Nat.mod_lt _ (by decide))
    · exact ih c hc

theorem strcmp_hexField (k a b : Nat) :
    strcmp (hexField k a) (hexField k b) < 0 ↔ a % 16 ^ k < b % 16 ^ k := by
  induction k with
  | zero => simp [hexField, strcmp, Nat.mod_one]
  | succ k ih =>
    have ha : a / 16 ^ k % 16 < 16 := Nat.mod_lt _ (by decide)
    have hb : b / 16 ^ k % 16 < 16 := Nat.mod_lt _ (by decide)
    have ra : a % 16 ^ k < 16 ^ k := Nat.mod_lt _ (by positivity)
    have rb : b % 16 ^ k < 16 ^ k := Nat.mod_lt _ (by positivity)
    rw [Nat.mod_pow_succ, Nat.mod_pow_succ]
    simp only [hexField, strcmp]
    generalize a / 16 ^ k % 16 = da at *
    generalize b / 16 ^ k % 16 = db at *
    generalize a % 16 ^ k = x at *
    generalize b % 16 ^ k = y at *
    generalize 16 ^ k = p at *
    rcases Nat.lt_trichotomy da db with h | h | h
    · have h1 := hexUpper_lt da ha db hb h
      have hne : hexUpper da ≠ hexUpper db := fun e => by rw [e] at h1; exact lt_irrefl _ h1
      rw [if_neg hne]
      have : p * (da + 1) ≤ p * db := Nat.mul_le_mul_left _ h
      constructor
      · intro _; nlinarith
      · intro _; omega
    · subst h
      simp only [if_true]
      rw [ih]; omega
    · have h1 := hexUpper_lt db hb da ha h
      have hne : hexUpper da ≠ hexUpper db := fun e => by rw [e] at h1; exact lt_irrefl _ h1
      rw [if_neg hne]
      have : p * (db + 1) ≤ p * da := Nat.mul_le_mul_left _ h
      constructor
      · intro _; omega
      · intro _; nlinarith

theorem precedes_iff (a b : Nat) (ha : a < 2 ^ 64) (hb : b < 2 ^ 64) :
    UndoCheckPointFilenamePrecedes (checkpointFileName a) (checkpointFileName b) = true ↔ a < b := by
  unfold UndoCheckPointFilenamePrecedes checkpointFileName
  rw [decide_eq_true_iff, strcmp_hexField]
  rw [Nat.mod_eq_of_lt (by norm_num; omega), Nat.mod_eq_of_lt (by norm_num; omega)]

/-! ## Retention -/

theorem cleanUpLoop_ok (o : List Char) (es : Dir) :
    ∀ w : World, w.faults.unlinkFails = [] →
      cleanUpLoop o es w = .ok ()
        { w with pg_undo := w.pg_undo.filter (fun d =>
            !(decide (d.1 ∈ es.map Prod.fst) &&
              (decide (d.1.length = UNDO_CHECKPOINT_FILENAME_LENGTH) &&
                UndoCheckPointFilenamePrecedes d.1 o))) } := by
  induction es with
  | nil => intro w _; simp [cleanUpLoop]
  | cons de rest ih =>
    intro w hw
    unfold cleanUpLoop
    by_cases hlen : de.1.length = UNDO_CHECKPOINT_FILENAME_LENGTH
    · by_cases hp : UndoCheckPointFilenamePrecedes de.1 o = true
      · simp only [hlen, not_true_eq_false, if_false, hp, if_true, hw, List.not_mem_nil]
        rw [ih { w with pg_undo := removeFile w.pg_undo de.1 } hw]
        simp only [removeFile, List.filter_filter]
        congr 2
        apply List.filter_congr
        intro d _
        by_cases hd : d.1 = de.1
        · simp [hd, hlen, hp]
        · have hd2 : (d.1 == de.1) = false := by simpa using hd
          simp [hd, hd2]
      · have hp' : UndoCheckPointFilenamePrecedes de.1 o = false := by simpa using hp
        simp only [hlen, not_true_eq_false, if_false, hp', Bool.false_eq_true]
        rw [ih _ hw]
        congr 2
        apply List.filter_congr
        intro d _
        by_cases hd : d.1 = de.1
        · simp [hd, hp']
        · have hd2 : (d.1 == de.1) = false := by simpa using hd
          simp [hd, hd2]
    · simp only [hlen, not_false_eq_true, if_true]
      rw [ih _ hw]
      congr 2
      apply List.filter_congr
      intro d _
      by_cases hd : d.1 = de.1
      · simp [hd, hlen]
      · have hd2 : (d.1 == de.1) = false := by simpa using hd
        simp [hd, hd2]

theorem cleanUp_filter (w : World) (P : Nat) (hb : w.backup = false)
    (hw : w.faults.unlinkFails = []) :
    CleanUpUndoCheckPointFiles w P = .ok ()
      { w with cleanupCalls := w.cleanupCalls ++ [P],
               pg_undo := w.pg_undo.filter (fun d =>
                 !(decide (d.1.length = UNDO_CHECKPOINT_FILENAME_LENGTH) &&
                   UndoCheckPointFilenamePrecedes d.1 (checkpointFileName P))) } := by
  unfold CleanUpUndoCheckPointFiles
  simp only []
  rw [if_neg (by simp [hb])]
  rw [cleanUpLoop_ok _ _ { w with cleanupCalls := w.cleanupCalls ++ [P] } hw]
  congr 2
  apply List.filter_congr
  intro d hd
  have : d.1 ∈ List.map Prod.fst w.pg_undo := List.mem_map_of_mem _ hd
  simp [this]

/-! ## CRC-32C -/

theorem crc32cPoly_lt : crc32cPoly < 2 ^ 32 := by decide

theorem crcShift_lt {c : Nat} (h : c < 2 ^ 32) : crcShift c < 2 ^ 32 := by
  unfold crcShift
  have h2 : c / 2 < 2 ^ 32 := by omega
  split
  · exact Nat.xor_lt_two_pow h2 crc32cPoly_lt
  · exact h2

theorem crcShift_odd_bit {c : Nat} (h : c < 2 ^ 32) :
    (crcShift c).testBit 31 = decide (c % 2 = 1) := by
  unfold crcShift
  have h2 : c / 2 < 2 ^ 31 := by omega
  have hb : (c / 2).testBit 31 = false := Nat.testBit_lt_two_pow h2
  have hp : crc32cPoly.testBit 31 = true := by decide
  split
  · rename_i h1
    simp [Nat.testBit_xor, hb, hp, h1]
  · rename_i h1
    simp [hb, h1]

theorem crcShift_inj {a b : Nat} (ha : a < 2 ^ 32) (hb : b < 2 ^ 32)
    (h : crcShift a = crcShift b) : a = b := by
  have h1 := crcShift_odd_bit ha
  have h2 := crcShift_odd_bit hb
  rw [h] at h1
  have hpar : decide (a % 2 = 1) = decide (b % 2 = 1) := h1.symm.trans h2
  unfold crcShift at h
  by_cases hodd : a % 2 = 1
  · have hodd2 : b % 2 = 1 := by simpa [hodd] using hpar
    rw [if_pos hodd, if_pos hodd2] at h
    have := Nat.xor_left_inj.mp h
    omega
  · have hodd2 : ¬ b % 2 = 1 := by simpa [hodd] using hpar
    rw [if_neg hodd, if_neg hodd2] at h
    omega

theorem crcByte_lt {c : Nat} (b : Byte) (h : c < 2 ^ 32) : crcByte c b < 2 ^ 32 := by
  unfold crcByte
  have hb : b.val < 2 ^ 32 := lt_of_lt_of_le b.isLt (by decide)
  have h0 := Nat.xor_lt_two_pow h hb
  exact crcShift_lt (crcShift_lt (crcShift_lt (crcShift_lt (crcShift_lt (crcShift_lt
    (crcShift_lt (crcShift_lt h0)))))))

theorem crcByte_xor_inj {x y : Nat} (hx : x < 2 ^ 32) (hy : y < 2 ^ 32)
    (h : crcShift (crcShift (crcShift (crcShift (crcShift (crcShift (crcShift (crcShift x)))))))
       = crcShift (crcShift (crcShift (crcShift (crcShift (crcShift (crcShift (crcShift y)))))))) :
    x = y := by
  have l1 := fun {c : Nat} (h : c < 2 ^ 32) => crcShift_lt h
  exact crcShift_inj hx hy (crcShift_inj (l1 hx) (l1 hy) (crcShift_inj (l1 (l1 hx)) (l1 (l1 hy))
    (crcShift_inj (l1 (l1 (l1 hx))) (l1 (l1 (l1 hy)))
    (crcShift_inj (l1 (l1 (l1 (l1 hx)))) (l1 (l1 (l1 (l1 hy))))
    (crcShift_inj (l1 (l1 (l1 (l1 (l1 hx))))) (l1 (l1 (l1 (l1 (l1 hy)))))
    (crcShift_inj (l1 (l1 (l1 (l1 (l1 (l1 hx)))))) (l1 (l1 (l1 (l1 (l1 (l1 hy))))))
    (crcShift_inj (l1 (l1 (l1 (l1 (l1 (l1 (l1 hx))))))) (l1 (l1 (l1 (l1 (l1 (l1 (l1 hy)))))))
      h)))))))

theorem crcByte_inj_state {a b : Nat} (x : Byte) (ha : a < 2 ^ 32) (hb : b < 2 ^ 32)
    (h : crcByte a x = crcByte b x) : a = b := by
  have hx : x.val < 2 ^ 32 := lt_of_lt_of_le x.isLt (by decide)
  have := crcByte_xor_inj (Nat.xor_lt_two_pow ha hx) (Nat.xor_lt_two_pow hb hx) h
  exact Nat.xor_left_inj.mp this

theorem crcByte_inj_byte {a : Nat} (x y : Byte) (ha : a < 2 ^ 32)
    (h : crcByte a x = crcByte a y) : x = y := by
  have hx : x.val < 2 ^ 32 := lt_of_lt_of_le x.isLt (by decide)
  have hy : y.val < 2 ^ 32 := lt_of_lt_of_le y.isLt (by decide)
  have := crcByte_xor_inj (Nat.xor_lt_two_pow ha hx) (Nat.xor_lt_two_pow ha hy) h
  exact Fin.ext (Nat.xor_right_inj.mp this)

theorem COMP_CRC32C_lt (data : List Byte) : ∀ {c : Nat}, c < 2 ^ 32 →
    COMP_CRC32C c data < 2 ^ 32 := by
  induction data with
  | nil => intro c h; exact h
  | cons b rest ih => intro c h; exact ih (crcByte_lt b h)

theorem COMP_CRC32C_append (c : Nat) (xs ys : List Byte) :
    COMP_CRC32C c (xs ++ ys) = COMP_CRC32C (COMP_CRC32C c xs) ys := by
  simp [COMP_CRC32C, List.foldl_append]

theorem COMP_CRC32C_inj_state (data : List Byte) : ∀ {a b : Nat}, a < 2 ^ 32 → b < 2 ^ 32 →
    COMP_CRC32C a data = COMP_CRC32C b data → a = b := by
  induction data with
  | nil => intro a b _ _ h; exact h
  | cons x rest ih =>
    intro a b ha hb h
    exact crcByte_inj_state x ha hb (ih (crcByte_lt x ha) (crcByte_lt x hb) h)

/-- Replacing one byte of the input by a different one changes the running CRC. -/
theorem COMP_CRC32C_set_ne (c : Nat) (hc : c < 2 ^ 32) (data : List Byte) (i : Nat)
    (v : Byte) (hi : i < data.length) (hv : data[i] ≠ v) :
    COMP_CRC32C c (data.set i v) ≠ COMP_CRC32C c data := by
  have hd : data = data.take i ++ data[i] :: data.drop (i + 1) := by
    simp
  rw [List.set_eq_take_append_cons_drop, if_pos hi]
  intro h
  have h2 : COMP_CRC32C c data
      = COMP_CRC32C c (data.take i ++ data[i] :: data.drop (i + 1)) := congrArg _ hd
  rw [h2, COMP_CRC32C_append, COMP_CRC32C_append] at h
  have hs := COMP_CRC32C_lt (data.take i) hc
  have h1 : crcByte (COMP_CRC32C c (data.take i)) v = crcByte (COMP_CRC32C c (data.take i)) data[i] :=
    COMP_CRC32C_inj_state (data.drop (i + 1)) (crcByte_lt _ hs) (crcByte_lt _ hs) h
  exact hv (crcByte_inj_byte _ _ hs h1).symm

theorem FIN_CRC32C_lt {c : Nat} (h : c < 2 ^ 32) : FIN_CRC32C c < 2 ^ 32 :=
  Nat.xor_lt_two_pow h (by decide)

theorem FIN_CRC32C_inj {a b : Nat} (h : FIN_CRC32C a = FIN_CRC32C b) : a = b :=
  Nat.xor_left_inj.mp h

theorem crcOfBytes_crcToBytes {c : Nat} (h : c < 2 ^ 32) : crcOfBytes (crcToBytes c) = c := by
  simp only [crcOfBytes, crcToBytes, List.getD_cons_zero, List.getD_cons_succ]
  omega

/-! ## Writing a checkpoint file -/

theorem lookupFile_storeFile (d : Dir) (n : List Char) (c : List Byte) :
    lookupFile (storeFile d n c) n = some c := by
  induction d with
  | nil => simp [storeFile, lookupFile]
  | cons e rest ih =>
    obtain ⟨m, x⟩ := e
    by_cases h : m = n
    · simp [storeFile, lookupFile, h]
    · simp [storeFile, lookupFile, h, ih]

theorem WriteRaw_ok {w w1 : World} {ctx c1 : UndoCheckpointContext} {buf : List Byte}
    (h : WriteRawUndoCheckpointData w ctx buf = .ok () (w1, c1)) :
    ∃ f, ctx.fd = some f ∧
      w1 = { w with pg_undo := (storeFile w.pg_undo f.name
              (((lookupFile w.pg_undo f.name).getD []).take f.pos ++ buf ++
                ((lookupFile w.pg_undo f.name).getD []).drop (f.pos + buf.length))) } ∧
      c1 = { ctx with fd := some { name := f.name, pos := f.pos + buf.length } } := by
  unfold WriteRawUndoCheckpointData sysWrite at h
  cases hfd : ctx.fd with
  | none => simp [hfd] at h
  | some f =>
    refine ⟨f, rfl, ?_⟩
    simp only [hfd] at h
    by_cases hwf : w.faults.writeFails = true
    · simp [hwf] at h
    · simp only [hwf, Bool.false_eq_true, if_false] at h
      cases hl : w.faults.writeLimit with
      | none =>
        simp only [hl] at h
        simp only [Int.toNat_ofNat, lt_self_iff_false, if_false] at h
        split at h
        · cases h
        · injection h with _ h2
          injection h2 with h3 h4
          exact ⟨h3.symm, h4.symm⟩
      | some r =>
        simp only [hl] at h
        simp only [Int.toNat_ofNat] at h
        split at h
        · cases h
        · split at h
          · cases h
          · rename_i hlen
            have hr : buf.length ≤ r := by
              rw [List.length_take] at hlen
              omega
            rw [List.take_of_length_le hr] at h
            injection h with _ h2
            injection h2 with h3 h4
            exact ⟨h3.symm, h4.symm⟩

theorem subsystemSave_ok (chunks : List (List Byte)) :
    ∀ (w w1 : World) (ctx c1 : UndoCheckpointContext) (name : List Char) (pre t : List Byte),
      ctx.fd = some { name := name, pos := pre.length } →
      lookupFile w.pg_undo name = some (pre ++ t) →
      subsystemSave chunks w ctx = .ok () (w1, c1) →
      c1 = { ctx with fd := some { name := name, pos := (pre ++ chunks.flatten).length },
                      crc := COMP_CRC32C ctx.crc chunks.flatten } ∧
      ∃ d, w1 = { w with pg_undo := d } ∧
        lookupFile d name = some (pre ++ chunks.flatten ++ t.drop chunks.flatten.length) := by
  induction chunks with
  | nil =>
    intro w w1 ctx c1 name pre t hfd hl h
    simp only [subsystemSave] at h
    injection h with _ h2
    injection h2 with h3 h4
    subst h3 h4
    refine ⟨?_, w.pg_undo, rfl, ?_⟩
    · cases ctx; simp_all [COMP_CRC32C]
    · simpa using hl
  | cons chunk rest ih =>
    intro w w1 ctx c1 name pre t hfd hl h
    simp only [subsystemSave, WriteUndoCheckpointData] at h
    cases hw : WriteRawUndoCheckpointData w ctx chunk with
    | error e s => simp [hw] at h
    | ok u s =>
      obtain ⟨w2, c2⟩ := s
      obtain ⟨f, hf, hw2, hc2⟩ := WriteRaw_ok hw
      rw [hfd] at hf
      injection hf with hf
      subst hf
      simp only [hw] at h
      simp only [hl, Option.getD_some, List.take_left, List.append_assoc] at hw2
      have hdrop : List.drop (pre.length + chunk.length) (pre ++ t) = t.drop chunk.length := by
        rw [List.drop_append]
      rw [hdrop] at hw2
      have hl2 : lookupFile w2.pg_undo name = some ((pre ++ chunk) ++ t.drop chunk.length) := by
        rw [hw2]; simp [lookupFile_storeFile]
      have hfd2 : ({ c2 with crc := COMP_CRC32C c2.crc chunk } : UndoCheckpointContext).fd
          = some { name := name, pos := (pre ++ chunk).length } := by
        rw [hc2]; simp
      obtain ⟨hc, d, hd1, hd2⟩ := ih w2 w1 _ c1 name (pre ++ chunk) (t.drop chunk.length) hfd2 hl2 h
      refine ⟨?_, d, ?_, ?_⟩
      · rw [hc, hc2]
        simp [COMP_CRC32C, List.foldl_append, Nat.add_assoc]
      · rw [hd1, hw2]
      · rw [hd2]
        simp [List.append_assoc, Nat.add_comm]

/-! ## Reading a checkpoint file -/

theorem ReadRaw_eq {w : World} {ctx : UndoCheckpointContext} {name : List Char} {p : Nat}
    {content : List Byte} (hr : w.faults.readFails = false)
    (hfd : ctx.fd = some { name := name, pos := p })
    (hl : lookupFile w.pg_undo name = some content) (hp : p ≤ content.length) (n : Nat) :
    ReadRawUndoCheckpointData w ctx n =
      if p + n ≤ content.length then
        .ok ((content.drop p).take n) { ctx with fd := some { name := name, pos := p + n } }
      else
        .error (.shortRead ctx.path (content.length - p) n)
          { ctx with fd := some { name := name, pos := p + (content.length - p) } } := by
  unfold ReadRawUndoCheckpointData sysRead
  simp only [hfd, hr, Bool.false_eq_true, if_false, hl, Option.getD_some]
  have hnn : ¬ (((List.take n (List.drop p content)).length : Int) < 0) :=
    not_lt.mpr (Int.natCast_nonneg _)
  simp only [hnn, if_false, Int.toNat_ofNat, List.length_take, List.length_drop]
  by_cases h : p + n ≤ content.length
  · have h1 : min n (content.length - p) = n := by omega
    simp [h, h1]
  · have h1 : min n (content.length - p) = content.length - p := by omega
    have h2 : content.length - p < n := by omega
    simp [h, h1, h2]

theorem subsystemRestore_ok {w : World} {name : List Char} {content : List Byte}
    (hr : w.faults.readFails = false) (hl : lookupFile w.pg_undo name = some content)
    (sizes : List Nat) :
    ∀ (ctx : UndoCheckpointContext) (p : Nat), ctx.fd = some { name := name, pos := p } →
      p + sizes.sum ≤ content.length →
      ∃ cs, subsystemRestore w sizes ctx = .ok cs
          { ctx with fd := some { name := name, pos := p + sizes.sum },
                     crc := COMP_CRC32C ctx.crc ((content.drop p).take sizes.sum) } ∧
        cs.flatten = (content.drop p).take sizes.sum ∧ cs.map List.length = sizes := by
  induction sizes with
  | nil =>
    intro ctx p hfd _
    refine ⟨[], ?_, by simp, rfl⟩
    cases ctx
    simp_all [subsystemRestore, COMP_CRC32C]
  | cons n rest ih =>
    intro ctx p hfd hle
    simp only [List.sum_cons] at hle
    have hread := ReadRaw_eq hr hfd hl (by omega) n
    rw [if_pos (by omega)] at hread
    obtain ⟨cs, h1, h2, h3⟩ := ih
      { ctx with fd := some { name := name, pos := p + n },
                 crc := COMP_CRC32C ctx.crc ((content.drop p).take n) }
      (p + n) rfl (by omega)
    refine ⟨(content.drop p).take n :: cs, ?_, ?_, ?_⟩
    · simp only [subsystemRestore, ReadUndoCheckpointData, hread, h1, List.sum_cons]
      congr 2
      · rw [Nat.add_assoc]
      · rw [← COMP_CRC32C_append, List.take_add, List.drop_drop]
    · rw [List.flatten_cons, h2, List.sum_cons, List.take_add, List.drop_drop]
    · have : p + n ≤ content.length := by omega
      simp [h3, List.length_take, List.length_drop]
      omega

theorem subsystemRestore_short {w : World} {name : List Char} {content : List Byte}
    (hr : w.faults.readFails = false) (hl : lookupFile w.pg_undo name = some content)
    (sizes : List Nat) :
    ∀ (ctx : UndoCheckpointContext) (p : Nat), ctx.fd = some { name := name, pos := p } →
      p ≤ content.length → content.length < p + sizes.sum →
      ∃ k rc n c, subsystemRestore w sizes ctx = .error (.shortRead ctx.path rc n) c ∧
        rc < n ∧ n ∈ sizes ∧ p + k + rc = content.length ∧
        c.crc = COMP_CRC32C ctx.crc ((content.drop p).take k) := by
  induction sizes with
  | nil => intro ctx p _ h1 h2; simp at h2; omega
  | cons n rest ih =>
    intro ctx p hfd hp hlt
    simp only [List.sum_cons] at hlt
    have hread := ReadRaw_eq hr hfd hl hp n
    by_cases hn : p + n ≤ content.length
    · rw [if_pos hn] at hread
      obtain ⟨k, rc, m, c, h1, h2, h3, h4, h5⟩ := ih
        { ctx with fd := some { name := name, pos := p + n },
                   crc := COMP_CRC32C ctx.crc ((content.drop p).take n) }
        (p + n) rfl hn (by omega)
      refine ⟨n + k, rc, m, c, ?_, h2, List.mem_cons_of_mem _ h3, by omega, ?_⟩
      · simp only [subsystemRestore, ReadUndoCheckpointData, hread, h1]
      · rw [h5, ← COMP_CRC32C_append, List.take_add, List.drop_drop]
    · rw [if_neg hn] at hread
      refine ⟨0, content.length - p, n,
        { ctx with fd := some { name := name, pos := p + (content.length - p) } },
        ?_, by omega, List.mem_cons_self _ _, by omega, ?_⟩
      · simp only [subsystemRestore, ReadUndoCheckpointData, hread]
      · simp [COMP_CRC32C]

/-! ## `StartupUndo` on a given file -/

theorem startup_eq {w : World} {R : Nat} {content : List Byte} (s1 s2 : List Nat)
    (hb : w.bootstrap = false) (ho : w.faults.openFails = false)
    (hr : w.faults.readFails = false)
    (hl : lookupFile w.pg_undo (checkpointFileName R) = some content)
    (hlen : s1.sum + s2.sum + 4 ≤ content.length) :
    ∃ cs1 cs2 c, cs1.flatten = content.take s1.sum ∧ cs1.map List.length = s1 ∧
      cs2.flatten = (content.drop s1.sum).take s2.sum ∧ cs2.map List.length = s2 ∧
      StartupUndo w R s1 s2 =
        if FIN_CRC32C (COMP_CRC32C INIT_CRC32C (content.take (s1.sum + s2.sum)))
            = crcOfBytes ((content.drop (s1.sum + s2.sum)).take 4)
        then .ok (cs1, cs2) c
        else .error (.incorrectChecksum (checkpointPath R)) c := by
  have hopen : openRead w (checkpointFileName R)
      = some { name := checkpointFileName R, pos := 0 } := by
    simp [openRead, ho, hl]
  obtain ⟨cs1, h1, f1, m1⟩ := subsystemRestore_ok hr hl s1
    { path := checkpointPath R, fd := some { name := checkpointFileName R, pos := 0 },
      crc := INIT_CRC32C } 0 rfl (by omega)
  obtain ⟨cs2, h2, f2, m2⟩ := subsystemRestore_ok hr hl s2
    { path := checkpointPath R, fd := some { name := checkpointFileName R, pos := 0 + s1.sum },
      crc := COMP_CRC32C INIT_CRC32C ((content.drop 0).take s1.sum) } (0 + s1.sum) rfl (by omega)
  have h3 := @ReadRaw_eq w ⟨checkpointPath R,
      some ⟨checkpointFileName R, 0 + s1.sum + s2.sum⟩,
      COMP_CRC32C (COMP_CRC32C INIT_CRC32C ((content.drop 0).take s1.sum))
        ((content.drop (0 + s1.sum)).take s2.sum)⟩ _ _ _ hr rfl hl (by omega) 4
  rw [if_pos (by omega)] at h3
  have hcrc : COMP_CRC32C (COMP_CRC32C INIT_CRC32C ((content.drop 0).take s1.sum))
      ((content.drop (0 + s1.sum)).take s2.sum)
      = COMP_CRC32C INIT_CRC32C (content.take (s1.sum + s2.sum)) := by
    rw [← COMP_CRC32C_append, List.take_add]; simp
  refine ⟨cs1, cs2, ⟨checkpointPath R,
      some ⟨checkpointFileName R, 0 + s1.sum + s2.sum + 4⟩,
      FIN_CRC32C (COMP_CRC32C INIT_CRC32C (content.take (s1.sum + s2.sum)))⟩,
    by simpa using f1, m1, by simpa using f2, m2, ?_⟩
  unfold StartupUndo
  simp only [hb, Bool.false_eq_true, if_false, hopen, reduceCtorEq, h1, h2, h3, hcrc, EQ_CRC32C,
    decide_eq_true_eq, ite_not]
  simp only [Nat.zero_add]
  split <;> simp_all

theorem startup_short {w : World} {R : Nat} {content : List Byte} (s1 s2 : List Nat)
    (hb : w.bootstrap = false) (ho : w.faults.openFails = false)
    (hr : w.faults.readFails = false)
    (hl : lookupFile w.pg_undo (checkpointFileName R) = some content)
    (hlen : content.length < s1.sum + s2.sum + 4) :
    ∃ k rc n c, StartupUndo w R s1 s2 = .error (.shortRead (checkpointPath R) rc n) c ∧
      rc < n ∧ k + rc = content.length ∧
      c.crc = COMP_CRC32C INIT_CRC32C (content.take k) := by
  have hopen : openRead w (checkpointFileName R)
      = some { name := checkpointFileName R, pos := 0 } := by
    simp [openRead, ho, hl]
  unfold StartupUndo
  simp only [hb, Bool.false_eq_true, if_false, hopen, reduceCtorEq]
  by_cases hs1 : s1.sum ≤ content.length
  · obtain ⟨cs1, h1, -, -⟩ := subsystemRestore_ok hr hl s1
      { path := checkpointPath R, fd := some { name := checkpointFileName R, pos := 0 },
        crc := INIT_CRC32C } 0 rfl (by omega)
    simp only [h1]
    by_cases hs2 : s1.sum + s2.sum ≤ content.length
    · obtain ⟨cs2, h2, -, -⟩ := subsystemRestore_ok hr hl s2
        { path := checkpointPath R,
          fd := some { name := checkpointFileName R, pos := 0 + s1.sum },
          crc := COMP_CRC32C INIT_CRC32C ((content.drop 0).take s1.sum) } (0 + s1.sum) rfl
        (by omega)
      have h3 := @ReadRaw_eq w ⟨checkpointPath R,
          some ⟨checkpointFileName R, 0 + s1.sum + s2.sum⟩,
          COMP_CRC32C (COMP_CRC32C INIT_CRC32C ((content.drop 0).take s1.sum))
            ((content.drop (0 + s1.sum)).take s2.sum)⟩ _ _ _ hr rfl hl (by omega) 4
      rw [if_neg (by omega)] at h3
      simp only [h2, h3]
      refine ⟨s1.sum + s2.sum, _, _, _, rfl, by omega, by omega, ?_⟩
      simp only []
      rw [← COMP_CRC32C_append, List.take_add]; simp
    · obtain ⟨k, rc, n, c, h2, hlt, -, hk, hc⟩ := subsystemRestore_short hr hl s2
        { path := checkpointPath R,
          fd := some { name := checkpointFileName R, pos := 0 + s1.sum },
          crc := COMP_CRC32C INIT_CRC32C ((content.drop 0).take s1.sum) } (0 + s1.sum) rfl
        (by omega) (by omega)
      simp only [h2]
      refine ⟨s1.sum + k, rc, n, c, rfl, hlt, by omega, ?_⟩
      rw [hc, ← COMP_CRC32C_append, List.take_add]; simp
  · obtain ⟨k, rc, n, c, h1, hlt, -, hk, hc⟩ := subsystemRestore_short hr hl s1
      { path := checkpointPath R, fd := some { name := checkpointFileName R, pos := 0 },
        crc := INIT_CRC32C } 0 rfl (by omega) (by omega)
    simp only [h1]
    exact ⟨k, rc, n, c, rfl, hlt, by omega, by simpa using hc⟩

/-! ## What a successful `CheckPointUndo` leaves behind -/

theorem cleanUpLoop_inv (o : List Char) (es : Dir) :
    ∀ w w1 : World, cleanUpLoop o es w = .ok () w1 →
      w1 = { w with pg_undo := w.pg_undo.filter (fun d =>
            !(decide (d.1 ∈ es.map Prod.fst) &&
              (decide (d.1.length = UNDO_CHECKPOINT_FILENAME_LENGTH) &&
                UndoCheckPointFilenamePrecedes d.1 o))) } := by
  induction es with
  | nil =>
    intro w w1 h
    simp only [cleanUpLoop] at h
    injection h with _ h
    subst h
    simp
  | cons de rest ih =>
    intro w w1 h
    unfold cleanUpLoop at h
    by_cases hlen : de.1.length = UNDO_CHECKPOINT_FILENAME_LENGTH
    · by_cases hp : UndoCheckPointFilenamePrecedes de.1 o = true
      · simp only [hlen, not_true_eq_false, if_false, hp, if_true] at h
        split at h
        · cases h
        · rw [ih _ _ h]
          simp only [removeFile, List.filter_filter]
          congr 1
          apply List.filter_congr
          intro d _
          by_cases hd : d.1 = de.1
          · simp [hd, hlen, hp]
          · have hd2 : (d.1 == de.1) = false := by simpa using hd
            simp [hd, hd2]
      · have hp2 : UndoCheckPointFilenamePrecedes de.1 o = false := by simpa using hp
        simp only [hlen, not_true_eq_false, if_false, hp2, Bool.false_eq_true] at h
        rw [ih _ _ h]
        congr 1
        apply List.filter_congr
        intro d _
        by_cases hd : d.1 = de.1
        · simp [hd, hp2]
        · have hd2 : (d.1 == de.1) = false := by simpa using hd
          simp [hd, hd2]
    · simp only [hlen, not_false_eq_true, if_true] at h
      rw [ih _ _ h]
      congr 1
      apply List.filter_congr
      intro d _
      by_cases hd : d.1 = de.1
      · simp [hd, hlen]
      · have hd2 : (d.1 == de.1) = false := by simpa using hd
        simp [hd, hd2]

theorem lookupFile_filter (f : List Char → Bool) (n : List Char) (hf : f n = true) (d : Dir) :
    lookupFile (d.filter (fun e => f e.1)) n = lookupFile d n := by
  induction d with
  | nil => rfl
  | cons e rest ih =>
    obtain ⟨m, c⟩ := e
    by_cases hm : m = n
    · subst hm
      simp [List.filter, hf, lookupFile]
    · by_cases hk : f m = true
      · simp [List.filter, hk, lookupFile, hm, ih]
      · have hk2 : f m = false := by simpa using hk
        simp [List.filter, hk2, lookupFile, hm, ih]

theorem cleanUp_keeps {w w1 : World} {P R : Nat} (hP : P < 2 ^ 64) (hR : R < 2 ^ 64)
    (hkeep : w.backup = true ∨ P ≤ R)
    (h : CleanUpUndoCheckPointFiles w P = .ok () w1) :
    lookupFile w1.pg_undo (checkpointFileName R) = lookupFile w.pg_undo (checkpointFileName R) ∧
      w1.bootstrap = w.bootstrap ∧ w1.backup = w.backup ∧ w1.faults = w.faults := by
  unfold CleanUpUndoCheckPointFiles at h
  simp only [] at h
  by_cases hb : w.backup = true
  · rw [if_pos hb] at h
    injection h with _ h
    subst h
    exact ⟨rfl, rfl, rfl, rfl⟩
  · rw [if_neg hb] at h
    have hle : P ≤ R := by
      rcases hkeep with h1 | h1
      · exact absurd h1 hb
      · exact h1
    have h2 := cleanUpLoop_inv _ _ _ _ h
    subst h2
    refine ⟨?_, rfl, rfl, rfl⟩
    have hnp : UndoCheckPointFilenamePrecedes (checkpointFileName R) (checkpointFileName P)
        = false := by
      have := precedes_iff R P hR hP
      cases hx : UndoCheckPointFilenamePrecedes (checkpointFileName R) (checkpointFileName P)
      · rfl
      · exact absurd (this.mp hx) (by omega)
    exact lookupFile_filter (fun n => !(decide (n ∈ w.pg_undo.map Prod.fst) &&
      (decide (n.length = UNDO_CHECKPOINT_FILENAME_LENGTH) &&
        UndoCheckPointFilenamePrecedes n (checkpointFileName P)))) _ (by simp [hnp]) _

theorem openCreate_ok (w : World) (name : List Char) (ho : w.faults.openFails = false) :
    ∃ d, openCreate w name = ({ w with pg_undo := d }, some { name := name, pos := 0 }) ∧
      lookupFile d name = some ((lookupFile w.pg_undo name).getD []) := by
  unfold openCreate
  simp only [ho, Bool.false_eq_true, if_false]
  cases hl : lookupFile w.pg_undo name with
  | none => exact ⟨_, rfl, by simp [lookupFile_storeFile]⟩
  | some c => exact ⟨w.pg_undo, rfl, by simp [hl]⟩

/-- A successful `CheckPointUndo` got every system call through, and before cleanup the
file holds the chunks, then the four checksum bytes, then whatever an older file of the
same name had beyond that. -/
theorem checkPoint_ok {w w1 : World} {R prior : Nat} {logs xact : List (List Byte)}
    (h : CheckPointUndo w R prior logs xact = .ok () w1) :
    w.faults.openFails = false ∧ w.faults.closeFails = false ∧
    w.faults.dirFsyncFails = false ∧
    ∃ d, CleanUpUndoCheckPointFiles { w with pg_undo := d } prior = .ok () w1 ∧
      lookupFile d (checkpointFileName R) = some
        ((logs ++ xact).flatten
          ++ crcToBytes (FIN_CRC32C (COMP_CRC32C INIT_CRC32C (logs ++ xact).flatten))
          ++ ((lookupFile w.pg_undo (checkpointFileName R)).getD []).drop
              ((logs ++ xact).flatten.length + 4)) := by
  unfold CheckPointUndo at h
  by_cases ho : w.faults.openFails = true
  · simp [openCreate, ho] at h
  have ho2 : w.faults.openFails = false := by simpa using ho
  obtain ⟨d0, hoc, hl0⟩ := openCreate_ok w (checkpointFileName R) ho2
  simp only [hoc, reduceCtorEq, if_false] at h
  cases hs1 : subsystemSave logs { w with pg_undo := d0 }
      ⟨checkpointPath R, some ⟨checkpointFileName R, 0⟩, INIT_CRC32C⟩ with
  | error e s => simp [hs1] at h
  | ok u s =>
    obtain ⟨w2, c2⟩ := s
    simp only [hs1] at h
    obtain ⟨hc2, d2, hw2, hl2⟩ := subsystemSave_ok logs _ _ _ _ (checkpointFileName R) [] _
      rfl (by simpa using hl0) hs1
    subst hw2
    cases hs2 : subsystemSave xact { w with pg_undo := d2 } c2 with
    | error e s => simp [hs2] at h
    | ok u s =>
      obtain ⟨w3, c3⟩ := s
      simp only [hs2] at h
      obtain ⟨hc3, d3, hw3, hl3⟩ := subsystemSave_ok xact _ _ _ _ (checkpointFileName R)
        ([] ++ logs.flatten) _ (by rw [hc2]) hl2 hs2
      subst hw3
      cases hs3 : WriteRawUndoCheckpointData { w with pg_undo := d3 }
          { c3 with crc := FIN_CRC32C c3.crc } (crcToBytes (FIN_CRC32C c3.crc)) with
      | error e s => simp [hs3] at h
      | ok u s =>
        obtain ⟨w4, c4⟩ := s
        simp only [hs3] at h
        obtain ⟨f, hf, hw4, hc4⟩ := WriteRaw_ok hs3
        subst hw4
        by_cases hcl : w.faults.closeFails = true
        · simp [hcl] at h
        by_cases hdf : w.faults.dirFsyncFails = true
        · simp [hcl, hdf] at h
        simp only [hcl, hdf, Bool.false_eq_true, if_false] at h
        refine ⟨ho2, by simpa using hcl, by simpa using hdf, _, h, ?_⟩
        have hA : ([] ++ logs.flatten ++ xact.flatten : List Byte) = (logs ++ xact).flatten := by
          simp
        rw [hA] at hl3 hc3
        have hl3b : lookupFile d3 (checkpointFileName R) = some ((logs ++ xact).flatten ++
            ((lookupFile w.pg_undo (checkpointFileName R)).getD []).drop
              (logs ++ xact).flatten.length) := by
          rw [hl3, List.drop_drop]
          simp [Nat.add_comm]
        have hfd : f = ⟨checkpointFileName R, (logs ++ xact).flatten.length⟩ := by
          rw [hc3] at hf
          simp only [Option.some.injEq] at hf
          exact hf.symm
        subst hfd
        have hcrc : c3.crc = COMP_CRC32C INIT_CRC32C (logs ++ xact).flatten := by
          rw [hc3, hc2]
          simp [COMP_CRC32C_append]
        have h4 : (crcToBytes (FIN_CRC32C (COMP_CRC32C INIT_CRC32C (logs ++ xact).flatten))).length
            = 4 := rfl
        simp only [hl3b, Option.getD_some, lookupFile_storeFile, hcrc]
        rw [List.take_left, List.drop_append, List.drop_drop, h4]

/-! ## Save then restore -/

theorem flatten_inj (cs : List (List Byte)) : ∀ ds : List (List Byte),
    cs.map List.length = ds.map List.length → cs.flatten = ds.flatten → cs = ds := by
  induction cs with
  | nil =>
    intro ds hm _
    cases ds with
    | nil => rfl
    | cons d ds => simp at hm
  | cons c cs ih =>
    intro ds hm hf
    cases ds with
    | nil => simp at hm
    | cons d ds =>
      simp only [List.map_cons, List.cons.injEq] at hm
      simp only [List.flatten_cons] at hf
      obtain ⟨h1, h2⟩ := List.append_inj hf hm.1
      rw [h1, ih ds hm.2 h2]

theorem sum_map_length (cs : List (List Byte)) : (cs.map List.length).sum = cs.flatten.length := by
  simp

theorem startup_on {w : World} {R : Nat} (B C tail : List Byte) (s1 s2 : List Nat)
    (hb : w.bootstrap = false) (ho : w.faults.openFails = false)
    (hr : w.faults.readFails = false)
    (hl : lookupFile w.pg_undo (checkpointFileName R) = some (B ++ C ++ tail))
    (hC : C.length = 4) (hs : s1.sum + s2.sum = B.length) :
    ∃ cs1 cs2 c, cs1.flatten = B.take s1.sum ∧ cs1.map List.length = s1 ∧
      cs2.flatten = B.drop s1.sum ∧ cs2.map List.length = s2 ∧
      StartupUndo w R s1 s2 =
        if FIN_CRC32C (COMP_CRC32C INIT_CRC32C B) = crcOfBytes C
        then .ok (cs1, cs2) c
        else .error (.incorrectChecksum (checkpointPath R)) c := by
  obtain ⟨cs1, cs2, c, f1, m1, f2, m2, h⟩ := startup_eq s1 s2 hb ho hr hl
    (by simp only [List.length_append]; omega)
  refine ⟨cs1, cs2, c, ?_, m1, ?_, m2, ?_⟩
  · rw [f1, List.append_assoc, List.take_append_of_le_length (by omega)]
  · rw [f2, List.append_assoc, List.drop_append_of_le_length (by omega),
      List.take_append_eq_append_take, List.take_of_length_le (by simp; omega)]
    have : s2.sum - (List.drop s1.sum B).length = 0 := by simp; omega
    rw [this]; simp
  · rw [h, hs, List.append_assoc, List.take_left, List.drop_left, List.take_left' hC]

/-- The file that a successful `CheckPointUndo` leaves under the name of its redo
position, provided cleanup was told a boundary that does not lie beyond it. -/
theorem checkPoint_file {w w1 : World} {R prior : Nat} {logs xact : List (List Byte)}
    (hR : R < 2 ^ 64) (hprior : prior < 2 ^ 64) (hkeep : w.backup = true ∨ prior ≤ R)
    (h : CheckPointUndo w R prior logs xact = .ok () w1) :
    lookupFile w1.pg_undo (checkpointFileName R) = some
      ((logs ++ xact).flatten
        ++ crcToBytes (FIN_CRC32C (COMP_CRC32C INIT_CRC32C (logs ++ xact).flatten))
        ++ ((lookupFile w.pg_undo (checkpointFileName R)).getD []).drop
            ((logs ++ xact).flatten.length + 4)) := by
  obtain ⟨-, -, -, d, hc, hl⟩ := checkPoint_ok h
  obtain ⟨h1, -, -, -⟩ := cleanUp_keeps (w := { w with pg_undo := d }) hprior hR hkeep hc
  rw [h1]
  exact hl

theorem crcOfBytes_set_ne {c : Nat} (hc : c < 2 ^ 32) (j : Nat) (hj : j < 4) (v : Byte)
    (hv : (crcToBytes c)[j]? ≠ some v) : crcOfBytes ((crcToBytes c).set j v) ≠ c := by
  have hv2 := v.isLt
  interval_cases j
  all_goals
    simp only [crcToBytes, List.getElem?_cons_zero, List.getElem?_cons_succ, ne_eq,
      Option.some.injEq] at hv
    have hne : ¬ (_ = v.val) := fun e => hv (Fin.ext e)
    simp only [crcOfBytes, crcToBytes, List.set_cons_zero, List.set_cons_succ,
      List.getD_cons_zero, List.getD_cons_succ]
    simp only [] at hne
    omega

theorem written_length (B : List Byte) (c : Nat) (t : List Byte) :
    (B ++ crcToBytes c ++ t).length = B.length + 4 + t.length := by
  simp only [List.length_append]
  rfl

/-! ## The claims about `undo.c` -/

/-- C1. Checkpoint round trip: after a successful `CheckPointUndo` for the redo position
`R` whose save routines wrote the chunks `logs` and `xact`, a later non-bootstrap
`StartupUndo` for `R` that finds the file as it was left, and whose restore routines
ask for the same sizes in the same order, is handed exactly those chunks, and the
checksum comparison succeeds. -/
theorem checkpoint_round_trip (w w1 wl : World) (R prior : Nat) (logs xact : List (List Byte))
    (hR : R < 2 ^ 64) (hprior : prior < 2 ^ 64) (hkeep : w.backup = true ∨ prior ≤ R)
    (hsave : CheckPointUndo w R prior logs xact = .ok () w1)
    (hlater : lookupFile wl.pg_undo (checkpointFileName R)
      = lookupFile w1.pg_undo (checkpointFileName R))
    (hboot : wl.bootstrap = false) (hopen : wl.faults.openFails = false)
    (hread : wl.faults.readFails = false) :
    ∃ ctx, StartupUndo wl R (logs.map List.length) (xact.map List.length)
      = .ok (logs, xact) ctx := by
  have hfile := checkPoint_file hR hprior hkeep hsave
  rw [← hlater] at hfile
  obtain ⟨cs1, cs2, c, f1, m1, f2, m2, h⟩ := startup_on _ _ _ (logs.map List.length)
    (xact.map List.length) hboot hopen hread hfile rfl (by simp)
  rw [if_pos (crcOfBytes_crcToBytes (FIN_CRC32C_lt (COMP_CRC32C_lt _ (by decide)))).symm] at h
  rw [sum_map_length, List.flatten_append, List.take_left] at f1
  rw [sum_map_length, List.flatten_append, List.drop_left] at f2
  rw [flatten_inj cs1 logs m1 f1, flatten_inj cs2 xact m2 f2] at h
  exact ⟨c, h⟩

theorem checkpoint_round_trip_witness :
    ∃ ctx, StartupUndo sampleSaved 5 [2, 1] [3] = .ok ([[1, 2], [3]], [[4, 5, 6]]) ctx :=
  checkpoint_round_trip sampleEmpty sampleSaved sampleSaved 5 3 [[1, 2], [3]] [[4, 5, 6]]
    (by decide) (by decide) (Or.inr (by decide)) (by decide) rfl rfl rfl rfl

/-- C4. Tamper detection: take the file left by a successful `CheckPointUndo` and change
one byte, in the subsystem data or in the four checksum bytes, to a different value; a
non-bootstrap `StartupUndo` for that redo position, whose restore routines ask for the
sizes that were written, then raises "contains incorrect checksum" and does not return
normally.  (When no older file of that name existed, data and checksum are the whole
file.) -/
theorem checkpoint_tamper_detected (w w1 wl : World) (R prior : Nat)
    (logs xact : List (List Byte)) (content : List Byte) (i : Nat) (v : Byte)
    (hR : R < 2 ^ 64) (hprior : prior < 2 ^ 64) (hkeep : w.backup = true ∨ prior ≤ R)
    (hsave : CheckPointUndo w R prior logs xact = .ok () w1)
    (hfile : lookupFile w1.pg_undo (checkpointFileName R) = some content)
    (hi : i < (logs ++ xact).flatten.length + 4) (hv : content[i]? ≠ some v)
    (hlater : lookupFile wl.pg_undo (checkpointFileName R) = some (content.set i v))
    (hboot : wl.bootstrap = false) (hopen : wl.faults.openFails = false)
    (hread : wl.faults.readFails = false) :
    (lookupFile w.pg_undo (checkpointFileName R) = none →
      content.length = (logs ++ xact).flatten.length + 4) ∧
    ∃ ctx, StartupUndo wl R (logs.map List.length) (xact.map List.length)
      = .error (.incorrectChecksum (checkpointPath R)) ctx := by
  have hf := checkPoint_file hR hprior hkeep hsave
  rw [hfile, Option.some.injEq] at hf
  refine ⟨fun hnone => by rw [hf, hnone, written_length]; rfl, ?_⟩
  have hc := FIN_CRC32C_lt (COMP_CRC32C_lt (logs ++ xact).flatten (show INIT_CRC32C < 2 ^ 32 by decide))
  by_cases hlt : i < (logs ++ xact).flatten.length
  · -- the byte lies in the subsystem data
    have hset : content.set i v = ((logs ++ xact).flatten.set i v)
        ++ crcToBytes (FIN_CRC32C (COMP_CRC32C INIT_CRC32C (logs ++ xact).flatten))
        ++ ((lookupFile w.pg_undo (checkpointFileName R)).getD []).drop
            ((logs ++ xact).flatten.length + 4) := by
      rw [hf, List.append_assoc, List.set_append_left _ _ hlt, List.append_assoc]
    have hv2 : (logs ++ xact).flatten[i] ≠ v := by
      intro e
      apply hv
      rw [hf, List.append_assoc, List.getElem?_append_left hlt, List.getElem?_eq_getElem hlt, e]
    rw [hset] at hlater
    obtain ⟨cs1, cs2, c, -, -, -, -, h⟩ := startup_on _ _ _ (logs.map List.length)
      (xact.map List.length) hboot hopen hread hlater rfl (by simp)
    rw [if_neg] at h
    · exact ⟨c, h⟩
    · rw [crcOfBytes_crcToBytes hc]
      intro e
      exact COMP_CRC32C_set_ne _ (by decide) _ i v hlt hv2 (FIN_CRC32C_inj e)
  · -- the byte lies in the stored checksum
    have hge : (logs ++ xact).flatten.length ≤ i := by omega
    have hj : i - (logs ++ xact).flatten.length < 4 := by omega
    have h4 : (crcToBytes (FIN_CRC32C (COMP_CRC32C INIT_CRC32C (logs ++ xact).flatten))).length
        = 4 := rfl
    have hset : content.set i v = (logs ++ xact).flatten
        ++ ((crcToBytes (FIN_CRC32C (COMP_CRC32C INIT_CRC32C (logs ++ xact).flatten))).set
              (i - (logs ++ xact).flatten.length) v)
        ++ ((lookupFile w.pg_undo (checkpointFileName R)).getD []).drop
            ((logs ++ xact).flatten.length + 4) := by
      rw [hf, List.append_assoc, List.set_append_right _ _ hge,
        List.set_append_left _ _ (by rw [h4]; exact hj), List.append_assoc]
    have hv2 : (crcToBytes (FIN_CRC32C (COMP_CRC32C INIT_CRC32C (logs ++ xact).flatten)))[
        i - (logs ++ xact).flatten.length]? ≠ some v := by
      intro e
      apply hv
      rw [hf, List.append_assoc, List.getElem?_append_right hge,
        List.getElem?_append_left (by rw [h4]; exact hj), e]
    rw [hset] at hlater
    obtain ⟨cs1, cs2, c, -, -, -, -, h⟩ := startup_on _ _ _ (logs.map List.length)
      (xact.map List.length) hboot hopen hread hlater (by simp [crcToBytes]) (by simp)
    rw [if_neg] at h
    · exact ⟨c, h⟩
    · intro e
      exact crcOfBytes_set_ne hc _ hj v hv2 e.symm

theorem checkpoint_tamper_detected_witness :
    (lookupFile sampleEmpty.pg_undo (checkpointFileName 5) = none →
      ([1, 2, 3, 4, 5, 6, 171, 251, 77, 79] : List Byte).length
        = ([[1, 2], [3]] ++ [[4, 5, 6]] : List (List Byte)).flatten.length + 4) ∧
    ∃ ctx, StartupUndo sampleTampered 5 [2, 1] [3]
      = .error (.incorrectChecksum (checkpointPath 5)) ctx :=
  checkpoint_tamper_detected sampleEmpty sampleSaved sampleTampered 5 3 [[1, 2], [3]]
    [[4, 5, 6]] [1, 2, 3, 4, 5, 6, 171, 251, 77, 79] 0 9
    (by decide) (by decide) (Or.inr (by decide)) (by decide) (by decide) (by decide)
    (by decide) (by decide) rfl rfl rfl

/-- C5, as amended.  Short-file detection: let `W` be the number of bytes a successful
`CheckPointUndo` wrote (chunks plus the four checksum bytes); `W` is the total length of
the file it leaves whenever no older file of that name was longer than `W`.  Cut the
file to its first `n < W` bytes; a non-bootstrap `StartupUndo` then raises the
data-corrupted error of a read that got `rc` bytes of the `nbytes` it asked for,
`rc < nbytes`, and the running checksum at that moment covers only the `k` bytes of the
completed reads, not the `rc` bytes of the failing one.  In `ReadUndoCheckpointData` a
failing raw read leaves the checksum untouched. -/
theorem checkpoint_truncation_detected (w w1 wl : World) (R prior : Nat)
    (logs xact : List (List Byte)) (content : List Byte) (n : Nat)
    (hR : R < 2 ^ 64) (hprior : prior < 2 ^ 64) (hkeep : w.backup = true ∨ prior ≤ R)
    (hsave : CheckPointUndo w R prior logs xact = .ok () w1)
    (hfile : lookupFile w1.pg_undo (checkpointFileName R) = some content)
    (hn : n < (logs ++ xact).flatten.length + 4)
    (hlater : lookupFile wl.pg_undo (checkpointFileName R) = some (content.take n))
    (hboot : wl.bootstrap = false) (hopen : wl.faults.openFails = false)
    (hread : wl.faults.readFails = false) :
    (((lookupFile w.pg_undo (checkpointFileName R)).getD []).length
        ≤ (logs ++ xact).flatten.length + 4 →
      content.length = (logs ++ xact).flatten.length + 4) ∧
    (∃ k rc nbytes ctx, StartupUndo wl R (logs.map List.length) (xact.map List.length)
        = .error (.shortRead (checkpointPath R) rc nbytes) ctx ∧
      rc < nbytes ∧ k + rc = n ∧ ctx.crc = COMP_CRC32C INIT_CRC32C (content.take k)) ∧
    (∀ ctx0 m e c, ReadRawUndoCheckpointData wl ctx0 m = .error e c →
      ReadUndoCheckpointData wl ctx0 m = .error e c ∧ c.crc = ctx0.crc) := by
  have hf := checkPoint_file hR hprior hkeep hsave
  rw [hfile, Option.some.injEq] at hf
  have hlen : (logs ++ xact).flatten.length + 4 ≤ content.length := by
    rw [hf, written_length]; omega
  have htake : (content.take n).length = n := by
    rw [List.length_take]; omega
  refine ⟨fun hold => ?_, ?_, ?_⟩
  · rw [hf, written_length, List.length_drop]
    omega
  · obtain ⟨k, rc, m, c, h, h1, h2, h3⟩ := startup_short (logs.map List.length)
      (xact.map List.length) hboot hopen hread hlater
      (by rw [htake, sum_map_length, sum_map_length, ← List.length_append,
            ← List.flatten_append]; exact hn)
    rw [htake] at h2
    refine ⟨k, rc, m, c, h, h1, h2, ?_⟩
    rw [h3, List.take_take, Nat.min_eq_left (by omega)]
  · intro ctx0 m e c h
    unfold ReadUndoCheckpointData
    rw [h]
    refine ⟨rfl, ?_⟩
    unfold ReadRawUndoCheckpointData at h
    simp only [] at h
    split at h
    · injection h with _ h; rw [← h]
    · split at h
      · injection h with _ h; rw [← h]
      · cases h

theorem checkpoint_truncation_detected_witness :
    (((lookupFile sampleEmpty.pg_undo (checkpointFileName 5)).getD []).length
        ≤ ([[1, 2], [3]] ++ [[4, 5, 6]] : List (List Byte)).flatten.length + 4 →
      ([1, 2, 3, 4, 5, 6, 171, 251, 77, 79] : List Byte).length
        = ([[1, 2], [3]] ++ [[4, 5, 6]] : List (List Byte)).flatten.length + 4) ∧
    (∃ k rc nbytes ctx, StartupUndo sampleTruncated 5 [2, 1] [3]
        = .error (.shortRead (checkpointPath 5) rc nbytes) ctx ∧
      rc < nbytes ∧ k + rc = 7 ∧
      ctx.crc = COMP_CRC32C INIT_CRC32C
        (([1, 2, 3, 4, 5, 6, 171, 251, 77, 79] : List Byte).take k)) ∧
    (∀ ctx0 m e c, ReadRawUndoCheckpointData sampleTruncated ctx0 m = .error e c →
      ReadUndoCheckpointData sampleTruncated ctx0 m = .error e c ∧ c.crc = ctx0.crc) :=
  checkpoint_truncation_detected sampleEmpty sampleSaved sampleTruncated 5 3 [[1, 2], [3]]
    [[4, 5, 6]] [1, 2, 3, 4, 5, 6, 171, 251, 77, 79] 7
    (by decide) (by decide) (Or.inr (by decide)) (by decide) (by decide) (by decide)
    (by decide) rfl rfl rfl

/-- C5 as stated fails: `CheckPointUndo` opens without `O_TRUNC`, so over an older
fifteen-byte file it succeeds and leaves a file of total length 15, of which it wrote
10; cut to its first 12 bytes (12 < 15), `StartupUndo` reads the ten bytes it needs and
returns normally, with no short-read error. -/
theorem checkpoint_truncation_counterexample :
    CheckPointUndo sampleOlder 5 3 [[1, 2], [3]] [[4, 5, 6]] = .ok () sampleOlderSaved ∧
    lookupFile sampleOlderSaved.pg_undo (checkpointFileName 5)
      = some [1, 2, 3, 4, 5, 6, 171, 251, 77, 79, 100, 101, 102, 103, 104] ∧
    ([1, 2, 3, 4, 5, 6, 171, 251, 77, 79, 100, 101, 102, 103, 104] : List Byte).length = 15 ∧
    lookupFile sampleOlderCut.pg_undo (checkpointFileName 5)
      = some (([1, 2, 3, 4, 5, 6, 171, 251, 77, 79, 100, 101, 102, 103, 104] : List Byte).take 12) ∧
    StartupUndo sampleOlderCut 5 [2, 1] [3] = .ok ([[1, 2], [3]], [[4, 5, 6]])
      { path := checkpointPath 5, fd := some { name := checkpointFileName 5, pos := 10 },
        crc := FIN_CRC32C (COMP_CRC32C INIT_CRC32C [1, 2, 3, 4, 5, 6]) } := by
  decide

/-- C3. Filename order equals LSN order: for 64-bit redo positions the name built by
`"%016X"` consists of exactly `UNDO_CHECKPOINT_FILENAME_LENGTH` = 16 upper-case
hexadecimal digits, the `strcmp` comparison of cleanup says that the name of `a`
precedes the name of `b` exactly when `a < b`, and equal names come from equal
positions. -/
theorem checkpointFileName_order (a b : Nat) (ha : a < 2 ^ 64) (hb : b < 2 ^ 64) :
    (checkpointFileName a).length = UNDO_CHECKPOINT_FILENAME_LENGTH ∧
    UNDO_CHECKPOINT_FILENAME_LENGTH = 16 ∧
    (∀ c ∈ checkpointFileName a, c ∈ "0123456789ABCDEF".toList) ∧
    (UndoCheckPointFilenamePrecedes (checkpointFileName a) (checkpointFileName b) = true
      ↔ a < b) ∧
    (checkpointFileName a = checkpointFileName b → a = b) := by
  refine ⟨hexField_length 16 a, rfl, hexField_mem 16 a, precedes_iff a b ha hb, ?_⟩
  intro e
  have h1 := precedes_iff a b ha hb
  have h2 := precedes_iff b a hb ha
  have h3 := precedes_iff a a ha ha
  rw [← e] at h1
  rw [← e] at h2
  have h4 : ¬ a < b := fun h => absurd (h3.mp (h1.mpr h)) (lt_irrefl a)
  have h5 : ¬ b < a := fun h => absurd (h3.mp (h2.mpr h)) (lt_irrefl a)
  omega

theorem checkpointFileName_order_witness :
    (checkpointFileName 0x9FFFFFFFF).length = UNDO_CHECKPOINT_FILENAME_LENGTH ∧
    UNDO_CHECKPOINT_FILENAME_LENGTH = 16 ∧
    (∀ c ∈ checkpointFileName 0x9FFFFFFFF, c ∈ "0123456789ABCDEF".toList) ∧
    (UndoCheckPointFilenamePrecedes (checkpointFileName 0x9FFFFFFFF)
      (checkpointFileName 0xA00000000) = true ↔ 0x9FFFFFFFF < 0xA00000000) ∧
    (checkpointFileName 0x9FFFFFFFF = checkpointFileName 0xA00000000 →
      0x9FFFFFFFF = 0xA00000000) :=
  checkpointFileName_order 0x9FFFFFFFF 0xA00000000 (by decide) (by decide)

/-- C2. Retention correctness: in a `pg_undo` whose entries of the fixed filename width
are checkpoint files, and with every `unlink` succeeding, `CleanUpUndoCheckPointFiles P`
returns normally; with no backup in progress the entries it removes are exactly the
checkpoint files of positions strictly below `P`, everything else stays in place and in
order; with a backup in progress the directory is left as it was. -/
theorem cleanUp_retention (w : World) (P : Nat) (hP : P < 2 ^ 64)
    (hun : w.faults.unlinkFails = [])
    (hdir : ∀ de ∈ w.pg_undo, de.1.length = UNDO_CHECKPOINT_FILENAME_LENGTH →
      ∃ q, q < 2 ^ 64 ∧ de.1 = checkpointFileName q) :
    ∃ w1, CleanUpUndoCheckPointFiles w P = .ok () w1 ∧
      (w.backup = true → w1.pg_undo = w.pg_undo) ∧
      (w.backup = false →
        w1.pg_undo.Sublist w.pg_undo ∧
        (∀ de ∈ w.pg_undo, de ∉ w1.pg_undo ↔ ∃ q, q < P ∧ de.1 = checkpointFileName q) ∧
        (∀ de ∈ w.pg_undo, de.1.length ≠ UNDO_CHECKPOINT_FILENAME_LENGTH → de ∈ w1.pg_undo) ∧
        (∀ q, q < 2 ^ 64 → P ≤ q → ∀ c, (checkpointFileName q, c) ∈ w.pg_undo →
          (checkpointFileName q, c) ∈ w1.pg_undo)) := by
  cases hb : w.backup with
  | true =>
    refine ⟨{ w with cleanupCalls := w.cleanupCalls ++ [P] }, ?_, fun _ => rfl,
      fun h => by cases h⟩
    simp [CleanUpUndoCheckPointFiles, hb]
  | false =>
    refine ⟨_, cleanUp_filter w P hb hun, fun h => (by cases h), fun _ => ?_⟩
    have hmem : ∀ de ∈ w.pg_undo, (de ∉ w.pg_undo.filter (fun d =>
          !(decide (d.1.length = UNDO_CHECKPOINT_FILENAME_LENGTH) &&
            UndoCheckPointFilenamePrecedes d.1 (checkpointFileName P))) ↔
        (de.1.length = UNDO_CHECKPOINT_FILENAME_LENGTH ∧
          UndoCheckPointFilenamePrecedes de.1 (checkpointFileName P) = true)) := by
      intro de hde
      simp [List.mem_filter, hde]
    refine ⟨List.filter_sublist _, ?_, ?_, ?_⟩
    · intro de hde
      rw [hmem de hde]
      constructor
      · rintro ⟨hlen, hp⟩
        obtain ⟨q, hq, hname⟩ := hdir de hde hlen
        rw [hname, precedes_iff q P hq hP] at hp
        exact ⟨q, hp, hname⟩
      · rintro ⟨q, hq, hname⟩
        have hq2 : q < 2 ^ 64 := by omega
        rw [hname]
        exact ⟨hexField_length 16 q, (precedes_iff q P hq2 hP).mpr hq⟩
    · intro de hde hlen
      by_contra hnot
      exact hlen ((hmem de hde).mp hnot).1
    · intro q hq hle c hmemq
      by_contra hnot
      have := ((hmem _ hmemq).mp hnot).2
      exact absurd ((precedes_iff q P hq hP).mp this) (by omega)

theorem cleanUp_retention_witness :
    ∃ w1, CleanUpUndoCheckPointFiles sampleRetention 2 = .ok () w1 ∧
      (sampleRetention.backup = true → w1.pg_undo = sampleRetention.pg_undo) ∧
      (sampleRetention.backup = false →
        w1.pg_undo.Sublist sampleRetention.pg_undo ∧
        (∀ de ∈ sampleRetention.pg_undo,
          de ∉ w1.pg_undo ↔ ∃ q, q < 2 ∧ de.1 = checkpointFileName q) ∧
        (∀ de ∈ sampleRetention.pg_undo,
          de.1.length ≠ UNDO_CHECKPOINT_FILENAME_LENGTH → de ∈ w1.pg_undo) ∧
        (∀ q, q < 2 ^ 64 → 2 ≤ q → ∀ c, (checkpointFileName q, c) ∈ sampleRetention.pg_undo →
          (checkpointFileName q, c) ∈ w1.pg_undo)) :=
  cleanUp_retention sampleRetention 2 (by decide) rfl (by
    intro de hde hlen
    simp only [sampleRetention, sampleEmpty, List.mem_cons, List.mem_singleton,
      List.not_mem_nil, or_false] at hde
    rcases hde with rfl | rfl | rfl | rfl
    · exact ⟨1, by decide, rfl⟩
    · exact ⟨2, by decide, rfl⟩
    · exact ⟨3, by decide, rfl⟩
    · exact absurd hlen (by decide))

/-- With files for the positions 1 < 2 < 3 (and a stray entry) and the boundary 2,
cleanup deletes the file for 1 only. -/
theorem cleanUp_sample :
    CleanUpUndoCheckPointFiles sampleRetention 2 = .ok ()
      { sampleRetention with
        pg_undo := [(checkpointFileName 2, []), (checkpointFileName 3, []), ("tmp".toList, [])],
        cleanupCalls := [2] } := by
  decide

/-- C6, evaluated where it fails: `pg_fsync` returns -1, every other call succeeds;
`CheckPointUndo` returns normally and has called cleanup (the boundary 3 is recorded). -/
theorem checkPoint_fsync_failure_unnoticed :
    pg_fsync sampleFsyncFails none = -1 ∧
    CheckPointUndo sampleFsyncFails 5 3 [[1, 2], [3]] [[4, 5, 6]] = .ok ()
      { sampleFsyncFails with
        pg_undo := [(checkpointFileName 5, [1, 2, 3, 4, 5, 6, 171, 251, 77, 79])],
        cleanupCalls := [3] } := by
  decide

theorem sysWrite_calls (w : World) (fd : Option OpenFile) (buf : List Byte) :
    (sysWrite w fd buf).2.1.cleanupCalls = w.cleanupCalls ∧
      (sysWrite w fd buf).2.1.faults = w.faults := by
  unfold sysWrite
  cases fd with
  | none => simp
  | some f =>
    by_cases hwf : w.faults.writeFails = true
    · simp [hwf]
    · simp [hwf]

theorem WriteRaw_calls (w : World) (ctx : UndoCheckpointContext) (buf : List Byte) :
    match WriteRawUndoCheckpointData w ctx buf with
    | .ok _ s => s.1.cleanupCalls = w.cleanupCalls ∧ s.1.faults = w.faults
    | .error _ s => s.1.cleanupCalls = w.cleanupCalls ∧ s.1.faults = w.faults := by
  have h := sysWrite_calls w ctx.fd buf
  unfold WriteRawUndoCheckpointData
  rcases hs : sysWrite w ctx.fd buf with ⟨wc, w1, fd⟩
  rw [hs] at h
  simp only [] at h ⊢
  split_ifs <;> exact h

theorem subsystemSave_calls (chunks : List (List Byte)) :
    ∀ (w : World) (ctx : UndoCheckpointContext),
      match subsystemSave chunks w ctx with
      | .ok _ s => s.1.cleanupCalls = w.cleanupCalls ∧ s.1.faults = w.faults
      | .error _ s => s.1.cleanupCalls = w.cleanupCalls ∧ s.1.faults = w.faults := by
  induction chunks with
  | nil => intro w ctx; simp [subsystemSave]
  | cons chunk rest ih =>
    intro w ctx
    have h1 := WriteRaw_calls w ctx chunk
    simp only [subsystemSave, WriteUndoCheckpointData]
    cases hw : WriteRawUndoCheckpointData w ctx chunk with
    | error e s => simpa [hw] using h1
    | ok u s =>
      obtain ⟨w2, c2⟩ := s
      simp only [hw] at h1 ⊢
      have h2 := ih w2 { c2 with crc := COMP_CRC32C c2.crc chunk }
      cases hs : subsystemSave rest w2 { c2 with crc := COMP_CRC32C c2.crc chunk } with
      | error e s => simp only [hs] at h2 ⊢; exact ⟨h2.1.trans h1.1, h2.2.trans h1.2⟩
      | ok u s => simp only [hs] at h2 ⊢; exact ⟨h2.1.trans h1.1, h2.2.trans h1.2⟩

/-- The failures `CheckPointUndo` does notice: when the open, the close or the directory
fsync fails it does not return normally but raises, and cleanup has not been called. -/
theorem checkPoint_surfaces_open_close_dirsync (w : World) (R prior : Nat)
    (logs xact : List (List Byte))
    (h : w.faults.openFails = true ∨ w.faults.closeFails = true ∨
      w.faults.dirFsyncFails = true) :
    ∃ e w1, CheckPointUndo w R prior logs xact = .error e w1 ∧
      w1.cleanupCalls = w.cleanupCalls ∧
      (w.faults.openFails = true → e = .couldNotOpen (checkpointPath R)) := by
  unfold CheckPointUndo
  by_cases ho : w.faults.openFails = true
  · exact ⟨_, w, by simp [openCreate, ho], rfl, fun _ => rfl⟩
  have ho2 : w.faults.openFails = false := by simpa using ho
  obtain ⟨d0, hoc, -⟩ := openCreate_ok w (checkpointFileName R) ho2
  simp only [hoc, reduceCtorEq, if_false]
  have c1 := subsystemSave_calls logs { w with pg_undo := d0 }
    ⟨checkpointPath R, some ⟨checkpointFileName R, 0⟩, INIT_CRC32C⟩
  cases hs1 : subsystemSave logs { w with pg_undo := d0 }
      ⟨checkpointPath R, some ⟨checkpointFileName R, 0⟩, INIT_CRC32C⟩ with
  | error e s =>
    simp only [hs1] at c1 ⊢
    exact ⟨e, s.1, rfl, c1.1, fun h1 => absurd h1 ho⟩
  | ok u s =>
    obtain ⟨w2, c2⟩ := s
    simp only [hs1] at c1 ⊢
    have c2b := subsystemSave_calls xact w2 c2
    cases hs2 : subsystemSave xact w2 c2 with
    | error e s =>
      simp only [hs2] at c2b ⊢
      exact ⟨e, s.1, rfl, c2b.1.trans c1.1, fun h1 => absurd h1 ho⟩
    | ok u s =>
      obtain ⟨w3, c3⟩ := s
      simp only [hs2] at c2b ⊢
      have c3b := WriteRaw_calls w3 { c3 with crc := FIN_CRC32C c3.crc }
        (crcToBytes (FIN_CRC32C c3.crc))
      cases hs3 : WriteRawUndoCheckpointData w3 { c3 with crc := FIN_CRC32C c3.crc }
          (crcToBytes (FIN_CRC32C c3.crc)) with
      | error e s =>
        simp only [hs3] at c3b ⊢
        exact ⟨e, s.1, rfl, c3b.1.trans (c2b.1.trans c1.1), fun h1 => absurd h1 ho⟩
      | ok u s =>
        obtain ⟨w4, c4⟩ := s
        simp only [hs3] at c3b ⊢
        have hf : w4.faults = w.faults := c3b.2.trans (c2b.2.trans c1.2)
        have hc : w4.cleanupCalls = w.cleanupCalls := c3b.1.trans (c2b.1.trans c1.1)
        by_cases hcl : w.faults.closeFails = true
        · exact ⟨.couldNotClose c4.path, w4, by simp [hf, hcl], hc, fun h1 => absurd h1 ho⟩
        · have hdf : w.faults.dirFsyncFails = true := by
            rcases h with h | h | h
            · exact absurd h ho
            · exact absurd h hcl
            · exact h
          exact ⟨.couldNotFsync "pg_undo".toList, w4, by simp [hf, hcl, hdf], hc,
            fun h1 => absurd h1 ho⟩

theorem checkPoint_surfaces_sample :
    ∃ e w1, CheckPointUndo { sampleEmpty with faults := { Faults.none with closeFails := true } }
        5 3 [[1, 2], [3]] [[4, 5, 6]] = .error e w1 ∧
      w1.cleanupCalls = sampleEmpty.cleanupCalls :=
  (checkPoint_surfaces_open_close_dirsync
    { sampleEmpty with faults := { Faults.none with closeFails := true } } 5 3
    [[1, 2], [3]] [[4, 5, 6]] (Or.inr (Or.inl rfl))).imp
    fun _ h => h.imp fun _ h2 => ⟨h2.1, h2.2.1⟩

/-! ## The `foo` module -/

theorem strlen_cstring (s : List Char) (hs : NUL ∉ s) (rest : List Char) :
    strlen (s ++ NUL :: rest) = s.length := by
  induction s with
  | nil => simp [strlen]
  | cons c cs ih =>
    have hc : c ≠ NUL := fun e => hs (by simp [e])
    have hcs : NUL ∉ cs := fun h => hs (List.mem_cons_of_mem _ h)
    simp [strlen, hc, ih hcs]

theorem cstring_payload (s : List Char) (hs : NUL ∉ s) :
    bytesAt (text_to_cstring s) (strlen (text_to_cstring s) + 1) = s ++ [NUL] := by
  unfold text_to_cstring bytesAt
  rw [strlen_cstring s hs []]
  exact List.take_of_length_le (by simp)

theorem foo_write_eq (k : FooConsts) (w : FooWorld) (s : List Char) (env : FooEnv)
    (urs urp : Nat) (hu : w.current_urs = some urs) (hp : env.urp = some urp) :
    foo_write k w s env = .ok urp
      { current_urs := some urs, created := w.created, registered := [],
        wal := w.wal ++ [{ rmid := k.RM_FOO_ID, xl_info := k.XLOG_FOO_STRING,
                           data := bytesAt (text_to_cstring s)
                             (strlen (text_to_cstring s) + 1) }],
        trace := w.trace ++
          [.UndoAllocate urs (strlen (text_to_cstring s) + 1), .START_CRIT_SECTION,
           .XLogBeginInsert,
           .UndoInsert urs 0 (bytesAt (text_to_cstring s) (strlen (text_to_cstring s) + 1)),
           .XLogRegisterData (bytesAt (text_to_cstring s) (strlen (text_to_cstring s) + 1)),
           .XLogInsert k.RM_FOO_ID k.XLOG_FOO_STRING env.lsn, .UndoPageSetLSN urs env.lsn,
           .END_CRIT_SECTION, .UndoRelease urs] } := by
  simp [foo_write, hu, hp, UndoAllocate, XLogBeginInsert, XLogRegisterData, XLogInsert,
    FooWorld.emit]

theorem foo_close_eq (k : FooConsts) (w : FooWorld) (env : FooEnv) (urs : Nat)
    (hu : w.current_urs = some urs) :
    foo_close k w env = .ok ()
      { current_urs := none, created := w.created, registered := [],
        wal := w.wal ++ [{ rmid := k.RM_FOO_ID, xl_info := k.XLOG_FOO_PING,
                           data := bogusRecord }],
        trace := w.trace ++
          [.UndoPrepareToMarkClosed urs, .START_CRIT_SECTION, .XLogBeginInsert,
           .UndoMarkClosed urs, .XLogRegisterData bogusRecord,
           .XLogInsert k.RM_FOO_ID k.XLOG_FOO_PING env.lsn, .UndoPageSetLSN urs env.lsn,
           .END_CRIT_SECTION, .UndoRelease urs] } := by
  simp [foo_close, hu, XLogBeginInsert, XLogRegisterData, XLogInsert, FooWorld.emit]

theorem foo_createwriteclose_eq (k : FooConsts) (w : FooWorld) (s : List Char) (env : FooEnv)
    (urp : Nat) (hp : env.urp = some urp) :
    foo_createwriteclose k w s env = .ok urp
      { current_urs := w.current_urs, created := w.created + 1, registered := [],
        wal := w.wal ++ [{ rmid := k.RM_FOO_ID, xl_info := k.XLOG_FOO_CREATEWRITECLOSE,
                           data := bytesAt (text_to_cstring s)
                             (strlen (text_to_cstring s) + 1) }],
        trace := w.trace ++
          [.UndoCreate .URST_FOO 'p' w.created,
           .UndoAllocate w.created (strlen (text_to_cstring s) + 1),
           .UndoPrepareToMarkClosed w.created, .START_CRIT_SECTION, .XLogBeginInsert,
           .UndoInsert w.created 0
             (bytesAt (text_to_cstring s) (strlen (text_to_cstring s) + 1)),
           .UndoMarkClosed w.created,
           .XLogRegisterData (bytesAt (text_to_cstring s) (strlen (text_to_cstring s) + 1)),
           .XLogInsert k.RM_FOO_ID k.XLOG_FOO_CREATEWRITECLOSE env.lsn,
           .UndoPageSetLSN w.created env.lsn, .END_CRIT_SECTION, .UndoRelease w.created] } := by
  simp [foo_createwriteclose, hp, UndoCreate, UndoAllocate, XLogBeginInsert, XLogRegisterData,
    XLogInsert, FooWorld.emit]

theorem foo_write_ok_inv {k : FooConsts} {w w1 : FooWorld} {s : List Char} {env : FooEnv}
    {urp : Nat} (h : foo_write k w s env = .ok urp w1) :
    ∃ urs, w.current_urs = some urs ∧ env.urp = some urp := by
  cases hu : w.current_urs with
  | none => simp [foo_write, hu] at h
  | some urs =>
    cases hp : env.urp with
    | none => simp [foo_write, hu, hp, UndoAllocate] at h
    | some p =>
      rw [foo_write_eq k w s env urs p hu hp] at h
      injection h with h1 _
      exact ⟨urs, rfl, by rw [h1]⟩

theorem foo_close_ok_inv {k : FooConsts} {w w1 : FooWorld} {env : FooEnv}
    (h : foo_close k w env = .ok () w1) : ∃ urs, w.current_urs = some urs := by
  cases hu : w.current_urs with
  | none => simp [foo_close, hu] at h
  | some urs => exact ⟨urs, rfl⟩

theorem foo_createwriteclose_ok_inv {k : FooConsts} {w w1 : FooWorld} {s : List Char}
    {env : FooEnv} {urp : Nat} (h : foo_createwriteclose k w s env = .ok urp w1) :
    env.urp = some urp := by
  cases hp : env.urp with
  | none => simp [foo_createwriteclose, hp, UndoCreate, UndoAllocate] at h
  | some p =>
    rw [foo_createwriteclose_eq k w s env p hp] at h
    injection h with h1 _
    rw [h1]

theorem foo_create_eq (w : FooWorld) (t : List Char)
    (hc : deref (text_to_cstring t) ∈ ['p', 't', 'u']) (hn : w.current_urs = none) :
    foo_create w (some t) = .ok ()
      { w with current_urs := some w.created, created := w.created + 1,
               trace := w.trace ++
                 [.UndoCreate .URST_FOO (deref (text_to_cstring t)) w.created] } := by
  simp only [List.mem_cons, List.mem_singleton, List.not_mem_nil, or_false] at hc
  unfold foo_create
  simp only [hn, ne_eq, not_true_eq_false, if_false, UndoCreate]
  rw [if_neg]
  rcases hc with h | h | h <;> simp [h]

/-- C7. Single-slot discipline, in every state `w` of the module (so after every
sequence of calls): with the slot empty, `foo_write` and `foo_close` raise their "no
active UndoRecordSet" errors and leave the world as it is; with the slot occupied,
`foo_create` with a valid class raises "already active" and leaves the world as it is;
`foo_create` on an empty slot fills it; `foo_write` on an occupied slot returns with
the same record set in the slot (or raises from the reservation, slot untouched);
`foo_close` on an occupied slot empties it, and a `foo_write` right after fails with
"no active UndoRecordSet". -/
theorem foo_single_slot (k : FooConsts) (w : FooWorld) (t s : List Char) (env env2 : FooEnv) :
    (w.current_urs = none →
      foo_write k w s env = .error .noActiveCallCreateFirst w ∧
      foo_close k w env = .error .noActiveUndoRecordSet w ∧
      (deref (text_to_cstring t) ∈ ['p', 't', 'u'] →
        ∃ w1, foo_create w (some t) = .ok () w1 ∧ w1.current_urs = some w.created)) ∧
    (∀ urs, w.current_urs = some urs →
      (deref (text_to_cstring t) ∈ ['p', 't', 'u'] →
        foo_create w (some t) = .error .alreadyActive w) ∧
      (∀ urp, env.urp = some urp →
        ∃ w1, foo_write k w s env = .ok urp w1 ∧ w1.current_urs = some urs) ∧
      (env.urp = none → foo_write k w s env = .error .allocateFailed w) ∧
      (∃ w1, foo_close k w env = .ok () w1 ∧ w1.current_urs = none ∧
        foo_write k w1 s env2 = .error .noActiveCallCreateFirst w1)) ∧
    (∀ arg w1, foo_create w arg = .ok () w1 →
      w.current_urs = none ∧ w1.current_urs ≠ none) ∧
    (∀ urp w1, foo_write k w s env = .ok urp w1 →
      w.current_urs ≠ none ∧ w1.current_urs = w.current_urs) ∧
    (∀ w1, foo_close k w env = .ok () w1 →
      w.current_urs ≠ none ∧ w1.current_urs = none) := by
  refine ⟨?_, ?_, ?_, ?_, ?_⟩
  · intro hn
    refine ⟨by simp [foo_write, hn], by simp [foo_close, hn], ?_⟩
    intro hc
    exact ⟨_, foo_create_eq w t hc hn, rfl⟩
  · intro urs hu
    refine ⟨?_, ?_, ?_, ?_⟩
    · intro hc
      simp only [List.mem_cons, List.mem_singleton, List.not_mem_nil, or_false] at hc
      unfold foo_create
      simp only [hu, ne_eq, reduceCtorEq, not_false_eq_true, if_true]
      rw [if_neg]
      rcases hc with h | h | h <;> simp [h]
    · intro urp hp
      exact ⟨_, foo_write_eq k w s env urs urp hu hp, rfl⟩
    · intro hp
      simp [foo_write, hu, hp, UndoAllocate]
    · exact ⟨_, foo_close_eq k w env urs hu, rfl, by simp [foo_write]⟩
  · intro arg w1 h
    unfold foo_create at h
    cases arg with
    | none => simp at h
    | some t2 =>
      simp only [] at h
      split at h
      · cases h
      · split at h
        · cases h
        · rename_i hs
          simp only [UndoCreate] at h
          injection h with _ h
          subst h
          exact ⟨by simpa using hs, by simp⟩
  · intro urp w1 h
    obtain ⟨urs, hu, hp⟩ := foo_write_ok_inv h
    rw [foo_write_eq k w s env urs urp hu hp] at h
    injection h with _ h
    subst h
    exact ⟨by simp [hu], by simp [hu]⟩
  · intro w1 h
    obtain ⟨urs, hu⟩ := foo_close_ok_inv h
    rw [foo_close_eq k w env urs hu] at h
    injection h with _ h
    subst h
    exact ⟨by simp [hu], rfl⟩

/-- C8. `foo_create` validates the persistence class, which it reads from the first
character of its argument (`*persistence`, NUL for an empty text): when that character
is none of `p`, `t`, `u` it raises "unknown persistence level", creates no record set
and leaves the world, slot included, as it was; when it is one of them and the slot is
empty it returns, the only collaborator call being `UndoCreate(URST_FOO, c)` for that
very character `c`, and the slot holds the record set this call returned.  (A NULL
argument raises "persistence level required", also with no effect.) -/
theorem foo_create_validates (w : FooWorld) (t : List Char) :
    (deref (text_to_cstring t) ∉ ['p', 't', 'u'] →
      foo_create w (some t) = .error .unknownPersistenceLevel w) ∧
    (deref (text_to_cstring t) ∈ ['p', 't', 'u'] → w.current_urs = none →
      foo_create w (some t) = .ok ()
        { w with current_urs := some w.created, created := w.created + 1,
                 trace := w.trace ++
                   [.UndoCreate .URST_FOO (deref (text_to_cstring t)) w.created] }) ∧
    (∀ c : Char, c ≠ 'p' → c ≠ 't' → c ≠ 'u' →
      foo_create w (some [c]) = .error .unknownPersistenceLevel w) ∧
    foo_create w (some []) = .error .unknownPersistenceLevel w ∧
    foo_create w none = .error .persistenceLevelRequired w := by
  refine ⟨?_, ?_, ?_, ?_, rfl⟩
  · intro hc
    simp only [List.mem_cons, List.mem_singleton, List.not_mem_nil, or_false, not_or] at hc
    unfold foo_create
    simp only []
    rw [if_pos ⟨hc.1, hc.2.1, hc.2.2⟩]
  · intro hc hn
    exact foo_create_eq w t hc hn
  · intro c h1 h2 h3
    unfold foo_create
    simp only []
    rw [if_pos]
    simpa [deref, text_to_cstring] using ⟨h1, h2, h3⟩
  · unfold foo_create
    simp only []
    rw [if_pos (by decide)]

theorem foo_create_validates_witness :
    foo_create sampleFooOpen (some "x".toList) = .error .unknownPersistenceLevel sampleFooOpen ∧
    foo_create sampleFoo (some "t".toList) = .ok ()
      { sampleFoo with current_urs := some 0, created := 1,
                       trace := [.UndoCreate .URST_FOO 't' 0] } :=
  ⟨(foo_create_validates sampleFooOpen "x".toList).1 (by decide),
   (foo_create_validates sampleFoo "t".toList).2.1 (by decide) rfl⟩

theorem foo_single_slot_witness :
    (foo_write sampleConsts sampleFoo "hello".toList sampleEnv
        = .error .noActiveCallCreateFirst sampleFoo ∧
      foo_close sampleConsts sampleFoo sampleEnv = .error .noActiveUndoRecordSet sampleFoo ∧
      (deref (text_to_cstring "p".toList) ∈ ['p', 't', 'u'] →
        ∃ w1, foo_create sampleFoo (some "p".toList) = .ok () w1 ∧
          w1.current_urs = some sampleFoo.created)) ∧
    ((deref (text_to_cstring "p".toList) ∈ ['p', 't', 'u'] →
        foo_create sampleFooOpen (some "p".toList) = .error .alreadyActive sampleFooOpen) ∧
      (∀ urp, sampleEnv.urp = some urp →
        ∃ w1, foo_write sampleConsts sampleFooOpen "hello".toList sampleEnv = .ok urp w1 ∧
          w1.current_urs = some 0) ∧
      (sampleEnv.urp = none →
        foo_write sampleConsts sampleFooOpen "hello".toList sampleEnv
          = .error .allocateFailed sampleFooOpen) ∧
      (∃ w1, foo_close sampleConsts sampleFooOpen sampleEnv = .ok () w1 ∧
        w1.current_urs = none ∧
        foo_write sampleConsts w1 "hello".toList sampleEnv
          = .error .noActiveCallCreateFirst w1)) :=
  ⟨(foo_single_slot sampleConsts sampleFoo "p".toList "hello".toList sampleEnv sampleEnv).1 rfl,
   (foo_single_slot sampleConsts sampleFooOpen "p".toList "hello".toList sampleEnv
      sampleEnv).2.1 0 rfl⟩

theorem wellFormed_info {k : FooConsts} (hk : k.wellFormed = true) (rmid : Nat)
    (data : List Char) :
    recordInfo k { rmid := rmid, xl_info := k.XLOG_FOO_STRING, data := data }
      = k.XLOG_FOO_STRING ∧
    recordInfo k { rmid := rmid, xl_info := k.XLOG_FOO_CREATEWRITECLOSE, data := data }
      = k.XLOG_FOO_CREATEWRITECLOSE ∧
    k.XLOG_FOO_CREATEWRITECLOSE ≠ k.XLOG_FOO_STRING ∧
    k.XLOG_FOO_CREATEWRITECLOSE ≠ k.XLOG_FOO_PING := by
  simp only [FooConsts.wellFormed, Bool.and_eq_true, decide_eq_true_eq] at hk
  obtain ⟨⟨⟨⟨⟨h1, h2⟩, h3⟩, h4⟩, -⟩, h6⟩ := hk
  exact ⟨h4, h6, fun e => h2 e.symm, fun e => h3 e.symm⟩

/-- C9. Write/replay equivalence: for a payload `s` without a NUL and a reservation
that succeeds, `foo_write` on an occupied slot returns, hands the record-set layer
exactly `s` followed by one NUL (`s.length + 1` bytes) and logs one record holding
those bytes, and `foo_redo` on that record returns and hands the record-set layer the
same bytes; `foo_createwriteclose` does the same with its own record; and whatever run
of either function succeeds is of this kind. -/
theorem foo_write_replay (k : FooConsts) (hk : k.wellFormed = true) (w wr : FooWorld)
    (s : List Char) (hs : NUL ∉ s) (env : FooEnv) (urp : Nat) (hp : env.urp = some urp) :
    (∀ urs, w.current_urs = some urs →
      ∃ w1 record, foo_write k w s env = .ok urp w1 ∧ w1.wal = w.wal ++ [record] ∧
        record.data = s ++ [NUL] ∧
        insertedData (w1.trace.drop w.trace.length) = [s ++ [NUL]] ∧
        ∃ wr1, foo_redo k wr record = .ok () wr1 ∧
          wr1.trace = wr.trace ++ [.UndoInsertInRecovery (s ++ [NUL])] ∧
          insertedData (wr1.trace.drop wr.trace.length) = [s ++ [NUL]]) ∧
    (∃ w1 record, foo_createwriteclose k w s env = .ok urp w1 ∧
        w1.wal = w.wal ++ [record] ∧ record.data = s ++ [NUL] ∧
        insertedData (w1.trace.drop w.trace.length) = [s ++ [NUL]] ∧
        ∃ wr1, foo_redo k wr record = .ok () wr1 ∧
          wr1.trace = wr.trace ++ [.UndoInsertInRecovery (s ++ [NUL]), .UndoUpdateInRecovery] ∧
          insertedData (wr1.trace.drop wr.trace.length) = [s ++ [NUL]]) ∧
    (∀ p w1, foo_write k w s env = .ok p w1 →
      ∃ record, w1.wal = w.wal ++ [record] ∧
        insertedData (w1.trace.drop w.trace.length) = [s ++ [NUL]] ∧
        ∃ wr1, foo_redo k wr record = .ok () wr1 ∧
          insertedData (wr1.trace.drop wr.trace.length) = [s ++ [NUL]]) ∧
    (∀ p w1, foo_createwriteclose k w s env = .ok p w1 →
      ∃ record, w1.wal = w.wal ++ [record] ∧
        insertedData (w1.trace.drop w.trace.length) = [s ++ [NUL]] ∧
        ∃ wr1, foo_redo k wr record = .ok () wr1 ∧
          insertedData (wr1.trace.drop wr.trace.length) = [s ++ [NUL]]) ∧
    (s ++ [NUL]).length = s.length + 1 := by
  obtain ⟨i1, i2, n1, n2⟩ := wellFormed_info hk k.RM_FOO_ID (s ++ [NUL])
  have hstr : strlen (s ++ [NUL]) = s.length := strlen_cstring s hs []
  have htake : bytesAt (s ++ [NUL]) (s.length + 1) = s ++ [NUL] :=
    List.take_of_length_le (by simp)
  have hredo1 : foo_redo k wr ⟨k.RM_FOO_ID, k.XLOG_FOO_STRING, s ++ [NUL]⟩
      = .ok () (foo_xlog_string wr ⟨k.RM_FOO_ID, k.XLOG_FOO_STRING, s ++ [NUL]⟩) := by
    unfold foo_redo
    simp only [i1, if_true]
  have hredo2 : foo_redo k wr ⟨k.RM_FOO_ID, k.XLOG_FOO_CREATEWRITECLOSE, s ++ [NUL]⟩
      = .ok () (foo_xlog_createwriteclose wr
          ⟨k.RM_FOO_ID, k.XLOG_FOO_CREATEWRITECLOSE, s ++ [NUL]⟩) := by
    unfold foo_redo
    simp only [i2, n1, n2, if_false, if_true]
  have ht1 : (foo_xlog_string wr ⟨k.RM_FOO_ID, k.XLOG_FOO_STRING, s ++ [NUL]⟩).trace
      = wr.trace ++ [.UndoInsertInRecovery (s ++ [NUL])] := by
    simp [foo_xlog_string, FooWorld.emit, hstr, htake]
  have ht2 : (foo_xlog_createwriteclose wr
        ⟨k.RM_FOO_ID, k.XLOG_FOO_CREATEWRITECLOSE, s ++ [NUL]⟩).trace
      = wr.trace ++ [.UndoInsertInRecovery (s ++ [NUL]), .UndoUpdateInRecovery] := by
    simp [foo_xlog_createwriteclose, FooWorld.emit, hstr, htake]
  have hw : ∀ urs, w.current_urs = some urs →
      ∃ w1 record, foo_write k w s env = .ok urp w1 ∧ w1.wal = w.wal ++ [record] ∧
        record.data = s ++ [NUL] ∧
        insertedData (w1.trace.drop w.trace.length) = [s ++ [NUL]] ∧
        ∃ wr1, foo_redo k wr record = .ok () wr1 ∧
          wr1.trace = wr.trace ++ [.UndoInsertInRecovery (s ++ [NUL])] ∧
          insertedData (wr1.trace.drop wr.trace.length) = [s ++ [NUL]] := by
    intro urs hu
    have h := foo_write_eq k w s env urs urp hu hp
    rw [cstring_payload s hs] at h
    refine ⟨_, _, h, rfl, rfl, ?_, _, hredo1, ht1, ?_⟩
    · simp only [List.drop_left]
      simp [insertedData]
    · rw [ht1, List.drop_left]
      simp [insertedData]
  have hc : ∃ w1 record, foo_createwriteclose k w s env = .ok urp w1 ∧
        w1.wal = w.wal ++ [record] ∧ record.data = s ++ [NUL] ∧
        insertedData (w1.trace.drop w.trace.length) = [s ++ [NUL]] ∧
        ∃ wr1, foo_redo k wr record = .ok () wr1 ∧
          wr1.trace = wr.trace ++ [.UndoInsertInRecovery (s ++ [NUL]), .UndoUpdateInRecovery] ∧
          insertedData (wr1.trace.drop wr.trace.length) = [s ++ [NUL]] := by
    have h := foo_createwriteclose_eq k w s env urp hp
    rw [cstring_payload s hs] at h
    refine ⟨_, _, h, rfl, rfl, ?_, _, hredo2, ht2, ?_⟩
    · simp only [List.drop_left]
      simp [insertedData]
    · rw [ht2, List.drop_left]
      simp [insertedData]
  refine ⟨hw, hc, ?_, ?_, by simp⟩
  · intro p w1 h
    obtain ⟨urs, hu, hp2⟩ := foo_write_ok_inv h
    obtain ⟨w2, record, h2, a1, -, a3, wr1, a4, -, a6⟩ := hw urs hu
    rw [h2] at h
    injection h with _ h
    subst h
    exact ⟨record, a1, a3, wr1, a4, a6⟩
  · intro p w1 h
    obtain ⟨w2, record, h2, a1, -, a3, wr1, a4, -, a6⟩ := hc
    rw [h2] at h
    injection h with _ h
    subst h
    exact ⟨record, a1, a3, wr1, a4, a6⟩

theorem foo_write_replay_witness :
    (∃ w1 record, foo_write sampleConsts sampleFooOpen "hello".toList sampleEnv = .ok 4096 w1 ∧
        w1.wal = sampleFooOpen.wal ++ [record] ∧ record.data = "hello".toList ++ [NUL] ∧
        insertedData (w1.trace.drop sampleFooOpen.trace.length) = ["hello".toList ++ [NUL]] ∧
        ∃ wr1, foo_redo sampleConsts sampleFoo record = .ok () wr1 ∧
          wr1.trace = sampleFoo.trace ++ [.UndoInsertInRecovery ("hello".toList ++ [NUL])] ∧
          insertedData (wr1.trace.drop sampleFoo.trace.length) = ["hello".toList ++ [NUL]]) ∧
    (∃ w1 record,
        foo_createwriteclose sampleConsts sampleFoo "hello".toList sampleEnv = .ok 4096 w1 ∧
        w1.wal = sampleFoo.wal ++ [record] ∧ record.data = "hello".toList ++ [NUL] ∧
        insertedData (w1.trace.drop sampleFoo.trace.length) = ["hello".toList ++ [NUL]] ∧
        ∃ wr1, foo_redo sampleConsts sampleFoo record = .ok () wr1 ∧
          wr1.trace = sampleFoo.trace ++
            [.UndoInsertInRecovery ("hello".toList ++ [NUL]), .UndoUpdateInRecovery] ∧
          insertedData (wr1.trace.drop sampleFoo.trace.length) = ["hello".toList ++ [NUL]]) :=
  ⟨(foo_write_replay sampleConsts (by decide) sampleFooOpen sampleFoo "hello".toList
      (by decide) sampleEnv 4096 rfl).1 0 rfl,
   (foo_write_replay sampleConsts (by decide) sampleFoo sampleFoo "hello".toList
      (by decide) sampleEnv 4096 rfl).2.1⟩

/-- The runs of `foo_write` and `foo_createwriteclose` on the text "hello", and the
replay of the records they log, evaluated. -/
theorem foo_write_replay_sample :
    foo_write sampleConsts sampleFooOpen "hello".toList sampleEnv = .ok 4096
      { current_urs := some 0, created := 1, registered := [],
        wal := [⟨23, 0, "hello".toList ++ [NUL]⟩],
        trace := [.UndoCreate .URST_FOO 'p' 0, .UndoAllocate 0 6, .START_CRIT_SECTION,
          .XLogBeginInsert, .UndoInsert 0 0 ("hello".toList ++ [NUL]),
          .XLogRegisterData ("hello".toList ++ [NUL]), .XLogInsert 23 0 777,
          .UndoPageSetLSN 0 777, .END_CRIT_SECTION, .UndoRelease 0] } ∧
    foo_createwriteclose sampleConsts sampleFoo "hello".toList sampleEnv = .ok 4096
      { current_urs := none, created := 1, registered := [],
        wal := [⟨23, 32, "hello".toList ++ [NUL]⟩],
        trace := [.UndoCreate .URST_FOO 'p' 0, .UndoAllocate 0 6,
          .UndoPrepareToMarkClosed 0, .START_CRIT_SECTION, .XLogBeginInsert,
          .UndoInsert 0 0 ("hello".toList ++ [NUL]), .UndoMarkClosed 0,
          .XLogRegisterData ("hello".toList ++ [NUL]), .XLogInsert 23 32 777,
          .UndoPageSetLSN 0 777, .END_CRIT_SECTION, .UndoRelease 0] } ∧
    foo_redo sampleConsts sampleFoo ⟨23, 0, "hello".toList ++ [NUL]⟩ = .ok ()
      { sampleFoo with trace := [.UndoInsertInRecovery ("hello".toList ++ [NUL])] } ∧
    foo_redo sampleConsts sampleFoo ⟨23, 32, "hello".toList ++ [NUL]⟩ = .ok ()
      { sampleFoo with trace := [.UndoInsertInRecovery ("hello".toList ++ [NUL]),
                                 .UndoUpdateInRecovery] } := by
  decide

/-- C10. Stamping discipline: `foo_write` and `foo_close` on an occupied slot and
`foo_createwriteclose` (the reservation succeeding) return, and the collaborator calls
of each run pass the monitor `stampingDiscipline` from its initial state: the space
reservation (`foo_write`), the prepare-to-close (`foo_close`) or both
(`foo_createwriteclose`) come before `START_CRIT_SECTION` and are for the record set
the run works on; inside the section the log record is begun, then that record set is
mutated, then the record is finished, then the pages of that record set are stamped,
once, with the position just returned, and no other stamp occurs; the section ends;
then the pages are released.  Every successful run is of this kind. -/
theorem foo_stamping_discipline (k : FooConsts) (w : FooWorld) (s : List Char)
    (env : FooEnv) :
    (∀ urs urp, w.current_urs = some urs → env.urp = some urp →
      ∃ w1, foo_write k w s env = .ok urp w1 ∧
        keepsDiscipline w w1 urs env.lsn = true ∧
        beforeSection (w1.trace.drop w.trace.length)
          = [.UndoAllocate urs (strlen (text_to_cstring s) + 1)]) ∧
    (∀ urs, w.current_urs = some urs →
      ∃ w1, foo_close k w env = .ok () w1 ∧
        keepsDiscipline w w1 urs env.lsn = true ∧
        beforeSection (w1.trace.drop w.trace.length) = [.UndoPrepareToMarkClosed urs]) ∧
    (∀ urp, env.urp = some urp →
      ∃ w1, foo_createwriteclose k w s env = .ok urp w1 ∧
        keepsDiscipline w w1 w.created env.lsn = true ∧
        beforeSection (w1.trace.drop w.trace.length)
          = [.UndoCreate .URST_FOO 'p' w.created,
             .UndoAllocate w.created (strlen (text_to_cstring s) + 1),
             .UndoPrepareToMarkClosed w.created]) ∧
    (∀ urp w1, foo_write k w s env = .ok urp w1 →
      ∃ urs, w.current_urs = some urs ∧ keepsDiscipline w w1 urs env.lsn = true) ∧
    (∀ w1, foo_close k w env = .ok () w1 →
      ∃ urs, w.current_urs = some urs ∧ keepsDiscipline w w1 urs env.lsn = true) ∧
    (∀ urp w1, foo_createwriteclose k w s env = .ok urp w1 →
      keepsDiscipline w w1 w.created env.lsn = true) := by
  have hw : ∀ urs urp, w.current_urs = some urs → env.urp = some urp →
      ∃ w1, foo_write k w s env = .ok urp w1 ∧
        keepsDiscipline w w1 urs env.lsn = true ∧
        beforeSection (w1.trace.drop w.trace.length)
          = [.UndoAllocate urs (strlen (text_to_cstring s) + 1)] := by
    intro urs urp hu hp
    refine ⟨_, foo_write_eq k w s env urs urp hu hp, ?_, ?_⟩
    · simp [keepsDiscipline, stampingDiscipline, stampStep, sameSet, reservedFor,
        beforeSection, stampsOf, insertPositions]
    · simp [beforeSection]
  have hc : ∀ urs, w.current_urs = some urs →
      ∃ w1, foo_close k w env = .ok () w1 ∧
        keepsDiscipline w w1 urs env.lsn = true ∧
        beforeSection (w1.trace.drop w.trace.length) = [.UndoPrepareToMarkClosed urs] := by
    intro urs hu
    refine ⟨_, foo_close_eq k w env urs hu, ?_, ?_⟩
    · simp [keepsDiscipline, stampingDiscipline, stampStep, sameSet, reservedFor,
        beforeSection, stampsOf, insertPositions]
    · simp [beforeSection]
  have hf : ∀ urp, env.urp = some urp →
      ∃ w1, foo_createwriteclose k w s env = .ok urp w1 ∧
        keepsDiscipline w w1 w.created env.lsn = true ∧
        beforeSection (w1.trace.drop w.trace.length)
          = [.UndoCreate .URST_FOO 'p' w.created,
             .UndoAllocate w.created (strlen (text_to_cstring s) + 1),
             .UndoPrepareToMarkClosed w.created] := by
    intro urp hp
    refine ⟨_, foo_createwriteclose_eq k w s env urp hp, ?_, ?_⟩
    · simp [keepsDiscipline, stampingDiscipline, stampStep, sameSet, reservedFor,
        beforeSection, stampsOf, insertPositions]
    · simp [beforeSection]
  refine ⟨hw, hc, hf, ?_, ?_, ?_⟩
  · intro urp w1 h
    obtain ⟨urs, hu, hp⟩ := foo_write_ok_inv h
    obtain ⟨w2, h2, hk2, -⟩ := hw urs urp hu hp
    rw [h2] at h
    injection h with _ h
    subst h
    exact ⟨urs, hu, hk2⟩
  · intro w1 h
    obtain ⟨urs, hu⟩ := foo_close_ok_inv h
    obtain ⟨w2, h2, hk2, -⟩ := hc urs hu
    rw [h2] at h
    injection h with _ h
    subst h
    exact ⟨urs, hu, hk2⟩
  · intro urp w1 h
    have hp := foo_createwriteclose_ok_inv h
    obtain ⟨w2, h2, hk2, -⟩ := hf urp hp
    rw [h2] at h
    injection h with _ h
    subst h
    exact hk2

theorem foo_stamping_discipline_witness :
    (∃ w1, foo_write sampleConsts sampleFooOpen "hello".toList sampleEnv = .ok 4096 w1 ∧
      keepsDiscipline sampleFooOpen w1 0 777 = true ∧
      beforeSection (w1.trace.drop sampleFooOpen.trace.length) = [.UndoAllocate 0 6]) ∧
    (∃ w1, foo_close sampleConsts sampleFooOpen sampleEnv = .ok () w1 ∧
      keepsDiscipline sampleFooOpen w1 0 777 = true ∧
      beforeSection (w1.trace.drop sampleFooOpen.trace.length)
        = [.UndoPrepareToMarkClosed 0]) ∧
    (∃ w1, foo_createwriteclose sampleConsts sampleFoo "hello".toList sampleEnv = .ok 4096 w1 ∧
      keepsDiscipline sampleFoo w1 0 777 = true ∧
      beforeSection (w1.trace.drop sampleFoo.trace.length)
        = [.UndoCreate .URST_FOO 'p' 0, .UndoAllocate 0 6, .UndoPrepareToMarkClosed 0]) :=
  ⟨(foo_stamping_discipline sampleConsts sampleFooOpen "hello".toList sampleEnv).1 0 4096
      rfl rfl,
   (foo_stamping_discipline sampleConsts sampleFooOpen "hello".toList sampleEnv).2.1 0 rfl,
   (foo_stamping_discipline sampleConsts sampleFoo "hello".toList sampleEnv).2.2.1 4096 rfl⟩

/-- The monitor is not vacuous.  It rejects, in this order: a stamp with a position
other than the one just returned; a mutation before the log record is begun; a release
inside the section; a write run without the space reservation; a close run without the
prepare-to-close; a reservation for another record set than the one inserted into; a
stamp on another record set than the one mutated; a second stamp. -/
theorem stampingDiscipline_rejects :
    stampingDiscipline (.before none none)
      [.UndoAllocate 0 6, .START_CRIT_SECTION, .XLogBeginInsert, .UndoInsert 0 0 [NUL],
       .XLogRegisterData [NUL], .XLogInsert 23 0 777, .UndoPageSetLSN 0 776,
       .END_CRIT_SECTION, .UndoRelease 0] = false ∧
    stampingDiscipline (.before none none)
      [.UndoAllocate 0 6, .START_CRIT_SECTION, .UndoInsert 0 0 [NUL], .XLogBeginInsert,
       .XLogRegisterData [NUL], .XLogInsert 23 0 777, .UndoPageSetLSN 0 777,
       .END_CRIT_SECTION, .UndoRelease 0] = false ∧
    stampingDiscipline (.before none none)
      [.UndoAllocate 0 6, .START_CRIT_SECTION, .XLogBeginInsert, .UndoInsert 0 0 [NUL],
       .XLogRegisterData [NUL], .XLogInsert 23 0 777, .UndoPageSetLSN 0 777,
       .UndoRelease 0, .END_CRIT_SECTION] = false ∧
    stampingDiscipline (.before none none)
      [.START_CRIT_SECTION, .XLogBeginInsert, .UndoInsert 0 0 [NUL],
       .XLogRegisterData [NUL], .XLogInsert 23 0 777, .UndoPageSetLSN 0 777,
       .END_CRIT_SECTION, .UndoRelease 0] = false ∧
    stampingDiscipline (.before none none)
      [.START_CRIT_SECTION, .XLogBeginInsert, .UndoMarkClosed 0,
       .XLogRegisterData [NUL], .XLogInsert 23 16 777, .UndoPageSetLSN 0 777,
       .END_CRIT_SECTION, .UndoRelease 0] = false ∧
    stampingDiscipline (.before none none)
      [.UndoAllocate 1 6, .START_CRIT_SECTION, .XLogBeginInsert, .UndoInsert 0 0 [NUL],
       .XLogRegisterData [NUL], .XLogInsert 23 0 777, .UndoPageSetLSN 0 777,
       .END_CRIT_SECTION, .UndoRelease 0] = false ∧
    stampingDiscipline (.before none none)
      [.UndoAllocate 0 6, .START_CRIT_SECTION, .XLogBeginInsert, .UndoInsert 0 0 [NUL],
       .XLogRegisterData [NUL], .XLogInsert 23 0 777, .UndoPageSetLSN 1 777,
       .END_CRIT_SECTION, .UndoRelease 0] = false ∧
    stampingDiscipline (.before none none)
      [.UndoAllocate 0 6, .START_CRIT_SECTION, .XLogBeginInsert, .UndoInsert 0 0 [NUL],
       .XLogRegisterData [NUL], .XLogInsert 23 0 777, .UndoPageSetLSN 0 777,
       .UndoPageSetLSN 0 777, .END_CRIT_SECTION, .UndoRelease 0] = false := by
  decide

end Zheap
